import Mathlib

/-!
Verification development for the behavior-graph recommendation core
(graph builder, graph statistics, pattern miner, hybrid fallback scorer,
rule engine) of the VIBE-TEAM repository.

The Python source is shallowly embedded:
* Python floats are modelled by `ℚ` (the claims under study concern the
  arithmetic structure of the scoring rules, not float rounding);
* outputs of external libraries (networkx pagerank / descendants /
  all_simple_paths, `math.log1p`, the YandexGPT oracle, polars) are modelled
  as explicit parameters that theorems quantify over, while every piece of
  logic written in the repository itself is embedded definitionally;
* Python dict lookups with defaults become total functions or `Option`
  fields with `getD`.
-/

/-- Lower-cases ASCII letters and Cyrillic capital letters, mirroring the
effect of Python `str.lower()` on the character ranges this data set uses. -/
def ruLowerChar (c : Char) : Char :=
  if 'A' ≤ c ∧ c ≤ 'Z' then Char.ofNat (c.toNat + 32)
  else if 'А' ≤ c ∧ c ≤ 'Я' then Char.ofNat (c.toNat + 32)
  else if c = 'Ё' then 'ё'
  else c

/-- Model of Python `str.lower()` for the languages appearing in the data. -/
def ruLower (s : String) : String := String.mk (s.data.map ruLowerChar)

/-- Model of Python `needle in hay` (contiguous substring containment). -/
def containsSub (needle hay : String) : Bool :=
  hay.toList.tails.any (fun t => needle.toList.isPrefixOf t)

/-- Counts non-overlapping occurrences of `p` in a character list, scanning
left to right, mirroring Python `str.count` for non-empty `p`. -/
def countSubList (p : List Char) : List Char → ℕ
  | [] => 0
  | c :: rest =>
    if p.isPrefixOf (c :: rest) then 1 + countSubList p (rest.drop (p.length - 1))
    else countSubList p rest
termination_by s => s.length
decreasing_by
  · simp only [List.length_drop, List.length_cons]
    omega
  · simp only [List.length_cons]
    omega

/-- Model of Python `hay.count(needle)` for non-empty `needle`. -/
def countSub (needle hay : String) : ℕ := countSubList needle.toList hay.toList

/-- Stable descending sort by a key, modelling Python
`sorted(l, key=key, reverse=True)` (which keeps the original relative order
of elements with equal keys). -/
def sortDescBy {α : Type} {β : Type} [LinearOrder β] (key : α → β) (l : List α) : List α :=
  l.insertionSort (fun a b => key b ≤ key a)

/-- Stable ascending sort by a key, modelling Python `sorted(l, key=key)`. -/
def sortAscBy {α : Type} {β : Type} [LinearOrder β] (key : α → β) (l : List α) : List α :=
  l.insertionSort (fun a b => key a ≤ key b)

/-- Product-score dictionaries (`base_scores`, `graph_scores`,
`pattern_scores`, `final_scores` in `nbo_model.py`); a missing key reads as
`0`, matching every `dict.get(product, 0)` in the source. -/
def Scores : Type := String → ℚ

/-- The empty score dictionary. -/
def zeroScores : Scores := fun _ => 0

/-- Model of `m[k] = m.get(k, 0) + v`. -/
def addScore (m : Scores) (k : String) (v : ℚ) : Scores :=
  fun s => if s = k then m k + v else m s

/-- Model of `m[k] = v`. -/
def setScore (m : Scores) (k : String) (v : ℚ) : Scores :=
  fun s => if s = k then v else m s

/-- Attribute record of a graph node, covering every attribute key the
source ever writes (`graph_builder.py`) or reads (`nbo_model.py`); absent
dict keys are `none`. -/
structure NodeData where
  ntype : Option String := none
  category : Option String := none
  category_id : Option String := none
  brand_id : Option String := none
  item_id : Option String := none
  amount : Option ℚ := none
  domain : Option String := none
  action_type : Option String := none
  user_id : Option String := none
deriving DecidableEq

/-- Attribute record of a graph edge. -/
structure EdgeData where
  weight : ℚ
  time_diff : Option ℚ := none
deriving DecidableEq

/-- Behavior graph: a directed graph in insertion order, modelling the
`networkx.DiGraph` built by `build_behavior_graph`. Node keys are unique and
there is at most one edge per ordered node pair (as in `nx.DiGraph`). -/
structure BGraph where
  nodes : List (String × NodeData)
  edges : List (String × String × EdgeData)
deriving DecidableEq

/-- Node identifiers of a graph, in insertion order. -/
def BGraph.keys (g : BGraph) : List String := g.nodes.map Prod.fst

/-- Ordered node pairs carrying an edge, in insertion order. -/
def BGraph.epairs (g : BGraph) : List (String × String) :=
  g.edges.map (fun e => (e.1, e.2.1))

/-- Model of `G.add_node(id, **data)`: updates the attributes in place when
the node exists (keeping its position, as networkx does), appends otherwise. -/
def BGraph.addNode (g : BGraph) (id : String) (d : NodeData) : BGraph :=
  if g.nodes.any (fun nd => nd.1 = id) then
    { g with nodes := g.nodes.map (fun nd => if nd.1 = id then (id, d) else nd) }
  else
    { g with nodes := g.nodes ++ [(id, d)] }

/-- Model of `G.has_edge(a, b)`. -/
def BGraph.hasEdge (g : BGraph) (a b : String) : Bool :=
  g.edges.any (fun e => e.1 = a ∧ e.2.1 = b)

/-- Model of `G[a][b]["weight"] += w`. -/
def BGraph.bumpEdgeWeight (g : BGraph) (a b : String) (w : ℚ) : BGraph :=
  { g with
    edges := g.edges.map (fun e =>
      if e.1 = a ∧ e.2.1 = b then (e.1, e.2.1, { e.2.2 with weight := e.2.2.weight + w })
      else e) }

/-- Model of `G.add_edge(a, b, **data)` for a pair not yet present. -/
def BGraph.addEdge (g : BGraph) (a b : String) (d : EdgeData) : BGraph :=
  { g with edges := g.edges ++ [(a, b, d)] }

/-- In-degree plus out-degree of a node, as in `dict(graph.degree())`. -/
def BGraph.degreeOf (g : BGraph) (v : String) : ℕ :=
  (g.edges.filter (fun e => e.1 = v)).length + (g.edges.filter (fun e => e.2.1 = v)).length

/-- Nodes connected to `v` by an edge in either direction. -/
def BGraph.undirectedAdj (g : BGraph) (v : String) : List String :=
  g.edges.filterMap (fun e =>
    if e.1 = v then some e.2.1 else if e.2.1 = v then some e.1 else none)

/-- One expansion step of undirected reachability. -/
def BGraph.expandOnce (g : BGraph) (s : List String) : List String :=
  (s ++ s.flatMap (g.undirectedAdj)).dedup

/-- Undirected reachability closure from `v` (iterated to a fixpoint bound). -/
def BGraph.weakReach (g : BGraph) (v : String) : List String :=
  (g.expandOnce)^[g.nodes.length] [v]

/-- Model of `nx.is_weakly_connected`: every node is in the undirected
reachability closure of the first node. (On an empty graph networkx raises;
`get_graph_statistics` never calls it there.) -/
def BGraph.isWeaklyConnected (g : BGraph) : Bool :=
  match g.nodes.map Prod.fst with
  | [] => false
  | v :: _ => g.nodes.all (fun nd => nd.1 ∈ g.weakReach v)

/-- Result shape of `get_graph_statistics`; `is_connected := none` models the
dictionary that lacks the `is_connected` key (the empty-graph early return). -/
structure GraphStats where
  nodes : ℕ
  edges : ℕ
  density : ℚ
  avg_degree : ℚ
  is_connected : Option Bool
deriving DecidableEq

/-- Embeds `get_graph_statistics` from `src/features/graph_builder.py`
(lines 308-332): early return without `is_connected` on the empty graph,
otherwise node/edge counts, `nx.density` (`m / (n (n - 1))`, `0` when
`n ≤ 1`), mean total degree, and weak connectivity. -/
def getGraphStatistics (g : BGraph) : GraphStats :=
  if g.nodes.length = 0 then
    { nodes := 0, edges := 0, density := 0, avg_degree := 0, is_connected := none }
  else
    let degrees := g.nodes.map (fun nd => g.degreeOf nd.1)
    let avgDegree : ℚ :=
      if degrees.isEmpty then 0 else ((degrees.map (fun d => (d : ℚ))).sum) / degrees.length
    { nodes := g.nodes.length
      edges := g.edges.length
      density :=
        if 1 < g.nodes.length then
          (g.edges.length : ℚ) / ((g.nodes.length : ℚ) * ((g.nodes.length : ℚ) - 1))
        else 0
      avg_degree := avgDegree
      is_connected := some g.isWeaklyConnected }

/-- The fixed action-weight table `ACTION_WEIGHTS` of `build_behavior_graph`
read through `ACTION_WEIGHTS.get(a, 1.0)`. -/
def actionWeight (a : String) : ℚ :=
  if a = "view" then 1
  else if a = "click" then 2
  else if a = "add_to_cart" then 3
  else if a = "order" then 5
  else if a = "purchase" then 5
  else if a = "transaction" then 4
  else 1

/-- One entry of the intermediate `events` list that `build_behavior_graph`
assembles from the per-domain aggregations before the graph loop. Absent
dict keys are `none`; `timestamp` is in seconds. -/
structure BEvent where
  timestamp : ℚ
  etype : String
  item_id : Option String := none
  category : Option String := none
  brand_id : Option String := none
  amount : Option ℚ := none
  domain : String
  weight : ℚ
deriving DecidableEq

/-- Python truthiness test `category and category != "unknown"` on the value
of `event.get("category", "unknown")`. -/
def categoryUsable (c : String) : Bool := c ≠ "" ∧ c ≠ "unknown"

/-- Node id and node attributes an event maps to in the graph loop of
`build_behavior_graph` (lines 207-262): category or item node for
view/click/add_to_cart/order events, brand-category or brand node for
transaction/purchase events, `none` for unclassifiable events (which the
loop drops with `continue`). -/
def nodeInfoOf (e : BEvent) : Option (String × NodeData) :=
  let category := e.category.getD "unknown"
  if e.etype = "view" ∨ e.etype = "click" ∨ e.etype = "add_to_cart" ∨ e.etype = "order" then
    if categoryUsable category then
      some ("cat_" ++ category ++ "_" ++ e.domain,
        { ntype := some "category", category := some category, domain := some e.domain,
          item_id := e.item_id, brand_id := e.brand_id, action_type := some e.etype })
    else
      some ("item_" ++ e.item_id.getD "unknown" ++ "_" ++ e.domain,
        { ntype := some "item", item_id := e.item_id, domain := some e.domain,
          action_type := some e.etype })
  else if e.etype = "transaction" ∨ e.etype = "purchase" then
    let brandId := e.brand_id.getD "unknown"
    if categoryUsable category then
      some ("brand_cat_" ++ brandId ++ "_" ++ category,
        { ntype := some "brand_category", brand_id := some brandId, category := some category,
          amount := some (e.amount.getD 0), domain := some e.domain })
    else
      some ("brand_" ++ brandId,
        { ntype := some "brand", brand_id := some brandId,
          amount := some (e.amount.getD 0), domain := some e.domain })
  else none

/-- The slice `events[max(0, i - 20) : i]` of temporal predecessors examined
for event `i`. -/
def predsWindow (events : List BEvent) (i : ℕ) : List BEvent :=
  (events.take i).drop (i - 20)

/-- One iteration of the graph loop of `build_behavior_graph`: create (or
refresh) the event's node, link it from every predecessor in the 20-event
window whose time difference lies strictly inside the time window (summing
weights when the edge already exists), then ensure a `START` edge exists. -/
def processEvent (windowHours : ℚ) (events : List BEvent) (g : BGraph) (ie : ℕ × BEvent) :
    BGraph :=
  match nodeInfoOf ie.2 with
  | none => g
  | some (nid, nd) =>
    let g := g.addNode nid nd
    let g := (predsWindow events ie.1).foldl (fun g pe =>
      let timeDiff := ie.2.timestamp - pe.timestamp
      if 0 < timeDiff ∧ timeDiff < windowHours * 3600 then
        match nodeInfoOf pe with
        | none => g
        | some (pn, _) =>
          if g.hasEdge pn nid then g.bumpEdgeWeight pn nid ie.2.weight
          else g.addEdge pn nid { weight := ie.2.weight, time_diff := some timeDiff }
      else g) g
    if g.hasEdge "START" nid then g
    else g.addEdge "START" nid { weight := ie.2.weight }

/-- Attributes of the `START` node added first by `build_behavior_graph`. -/
def startNodeData (userId : String) : NodeData :=
  { user_id := some userId, ntype := some "start" }

/-- Embeds the graph-assembly stage of `build_behavior_graph`
(`src/features/graph_builder.py`, lines 32-33 and 203-305): start from the
lone `START` node, sort the aggregated events by timestamp, and run the
event loop. The per-domain polars aggregations that produce the event list
are modelled separately (`mpGroupEvent`, `payGroupEvent`, `rcGroupEvent`). -/
def buildBehaviorGraph (userId : String) (events0 : List BEvent) (windowHours : ℚ) : BGraph :=
  let events := sortAscBy (fun e => e.timestamp) events0
  events.enum.foldl (processEvent windowHours events)
    { nodes := [("START", startNodeData userId)], edges := [] }

/-- One aggregated marketplace or retail group, i.e. one row of the polars
`group_by([category, action_type])` aggregation in `build_behavior_graph`
(the `category` field folds the `category` / `category_id` column choice). -/
structure MpAggRow where
  category : Option String
  action_type : Option String
  count : ℕ
  last_timestamp : ℚ
  top_item : Option String
  brand_id : Option String
deriving DecidableEq

/-- Python `row.get(col) or "unknown"`: `None` and the empty string both
fall back. -/
def orUnknown (c : Option String) : String :=
  match c with
  | some c => if c = "" then "unknown" else c
  | none => "unknown"

/-- The event built from one marketplace/retail aggregation row
(`graph_builder.py` lines 69-90 and 110-130): weight is
`count * ACTION_WEIGHTS.get(action_type, 1.0)`. -/
def mpGroupEvent (domain : String) (r : MpAggRow) : BEvent :=
  { timestamp := r.last_timestamp
    etype := r.action_type.getD "view"
    item_id := r.top_item
    category := some (orUnknown r.category)
    brand_id := r.brand_id
    domain := domain
    weight := (r.count : ℚ) * actionWeight (r.action_type.getD "view") }

/-- One raw payment row (only the columns the payments aggregation reads). -/
structure PayRow where
  brand_id : Option String
  amount : ℚ
  timestamp : ℚ
deriving DecidableEq

/-- One aggregated payments group, i.e. one row of the polars
`group_by("brand_id")` aggregation. -/
structure PayAggRow where
  brand_id : Option String
  total_amount : ℚ
  count : ℕ
  last_timestamp : ℚ
deriving DecidableEq

/-- The payments aggregation of `build_behavior_graph` (lines 133-138):
group by brand, sum amounts, count rows, keep the latest timestamp, sort by
total descending and keep the top 20. Group keys are taken in first
occurrence order (the downstream sort makes the initial group order
irrelevant to the claims studied here). -/
def payGroups (rows : List PayRow) : List PayAggRow :=
  let keys := (rows.map (fun r => r.brand_id)).dedup
  let groups := keys.map (fun b =>
    let rs := rows.filter (fun r => r.brand_id = b)
    let ts := rs.map (fun r => r.timestamp)
    { brand_id := b
      total_amount := (rs.map (fun r => r.amount)).sum
      count := rs.length
      last_timestamp := ts.foldl max (ts.headD 0) : PayAggRow })
  (sortDescBy (fun gr => gr.total_amount) groups).take 20

/-- The event built from one payments group (lines 140-163): weight is
`count * ACTION_WEIGHTS.get("transaction", 4.0) * amount_factor` with
`amount_factor = log1p(max(0, total_amount))` when the total is positive and
`1.0` otherwise. `log1p` models `math.log1p` (an external library function)
and is quantified over in the theorems. -/
def payGroupEvent (log1p : ℚ → ℚ) (r : PayAggRow) : BEvent :=
  let amountFactor := if 0 < r.total_amount then log1p (max 0 r.total_amount) else 1
  { timestamp := r.last_timestamp
    etype := "transaction"
    brand_id := r.brand_id
    amount := some r.total_amount
    domain := "payments"
    weight := (r.count : ℚ) * actionWeight "transaction" * amountFactor }

/-- One aggregated receipts group, i.e. one row of the polars
`group_by([category, "brand_id"])` aggregation. -/
structure RcAggRow where
  category : Option String
  brand_id : Option String
  total_count : ℚ
  total_price : ℚ
  transaction_count : ℕ
  first_timestamp : ℚ
  item_id : Option String
deriving DecidableEq

/-- The event built from one receipts group (lines 182-201): its weight is
the bare `transaction_count` (`"weight": count`), with no action-weight
multiplier. -/
def rcGroupEvent (r : RcAggRow) : BEvent :=
  { timestamp := r.first_timestamp
    etype := "purchase"
    item_id := r.item_id
    category := some (orUnknown r.category)
    brand_id := r.brand_id
    amount := some r.total_price
    domain := "receipts"
    weight := (r.transaction_count : ℚ) }

/-- A single aggregated transaction event to brand `B`, used to exercise the
graph loop on concrete input. -/
def payEventB : BEvent :=
  { timestamp := 0
    etype := "transaction"
    brand_id := some "B"
    domain := "payments"
    weight := 1 }

/-- Graph built from payment rows alone (empty marketplace/retail/receipt
tables): the payments aggregation followed by the graph assembly. -/
def buildGraphFromPayments (log1p : ℚ → ℚ) (userId : String) (rows : List PayRow)
    (windowHours : ℚ) : BGraph :=
  buildBehaviorGraph userId ((payGroups rows).map (payGroupEvent log1p)) windowHours

/-- The contiguous slice `seq[i : i + len]`. -/
def listSlice (seq : List String) (i len : ℕ) : List String := (seq.drop i).take len

/-- All windows of length `len`, i.e. `seq[i:i+len]` for
`i in range(len(seq) - len + 1)` (written with truncated subtraction, which
matches Python's empty range for `len > len(seq)`). -/
def windowsOfLen (seq : List String) (len : ℕ) : List (List String) :=
  (List.range (seq.length + 1 - len)).map (fun i => listSlice seq i len)

/-- The window lengths tried by `find_frequent_patterns`:
`range(min_pattern_len, min(len(seq) + 1, 6))`. -/
def minedLengths (seq : List String) (minLen : ℕ) : List ℕ :=
  List.range' minLen (min (seq.length + 1) 6 - minLen)

/-- The `all_patterns` list of `find_frequent_patterns`
(`src/features/pattern_miner.py`, lines 87-94). -/
def allPatterns (sequences : List (List String)) (minLen : ℕ) : List (List String) :=
  sequences.flatMap (fun seq => (minedLengths seq minLen).flatMap (windowsOfLen seq))

/-- One step of `collections.Counter` construction: bump the count of `p`,
inserting it with count 1 at the end on first sight (Counter preserves
first-insertion order). -/
def bumpCount (l : List (List String × ℕ)) (p : List String) : List (List String × ℕ) :=
  if l.any (fun e => e.1 = p) then
    l.map (fun e => if e.1 = p then (e.1, e.2 + 1) else e)
  else l ++ [(p, 1)]

/-- Model of `collections.Counter(ps).items()`. -/
def counterOf (ps : List (List String)) : List (List String × ℕ) := ps.foldl bumpCount []

/-- Embeds `find_frequent_patterns` (`pattern_miner.py`, lines 74-109):
count every contiguous window of each tried length, keep those with count at
least `min_support`, and sort by count descending (stably, so ties keep
first-seen order). -/
def findFrequentPatterns (sequences : List (List String)) (minLen minSupport : ℕ) :
    List (List String × ℕ) :=
  sortDescBy (fun e => e.2)
    ((counterOf (allPatterns sequences minLen)).filter (fun e => minSupport ≤ e.2))

/-- Embeds the mining tail of `extract_patterns` (`pattern_miner.py`, lines
160-171): an empty result for a sequence shorter than `min_pattern_len`,
otherwise the frequent patterns with their counts dropped. -/
def minePatterns (seq : List String) (minLen minSupport : ℕ) : List (List String) :=
  if seq.length < minLen then []
  else (findFrequentPatterns [seq] minLen minSupport).map Prod.fst

/-- Number of contiguous occurrences of `p` in `seq` (one per start index,
overlapping occurrences counted). -/
def occCount (seq : List String) (p : List String) : ℕ :=
  ((List.range (seq.length + 1 - p.length)).filter (fun i => listSlice seq i p.length = p)).length

/-- The scalar user-profile statistics read by `_fallback_recommendations`
through `user_profile.get(key, 0)` / `user_profile.get(key)`. -/
structure UserProfile where
  num_payments : ℚ := 0
  total_tx : ℚ := 0
  avg_tx : ℚ := 0
  num_views : ℚ := 0
  days_active : ℚ := 0
  unique_items : ℚ := 0
  top_category : Option String := none
  top_brand : Option String := none
deriving DecidableEq

/-- Python condition `top_category and ("недвижимость" in str(top_category).lower()
or "ремонт" in str(top_category).lower())` from the mortgage base rule. -/
def topCategoryRealEstate (p : UserProfile) : Bool :=
  let tc := p.top_category.getD ""
  tc ≠ "" ∧ (containsSub "недвижимость" (ruLower tc) ∨ containsSub "ремонт" (ruLower tc))

/-- The fixed product catalog `self.products` of a freshly initialised
`NBOModel`. -/
def products : List String :=
  ["Ипотека", "Кредитная карта", "Вклад", "Кредит", "Дебетовая карта"]

/-- Embeds the `base_scores` block of `_fallback_recommendations`
(`src/modeling/nbo_model.py`, lines 546-592): per-product sums of threshold
bonuses with a small positive floor when no bonus fires. -/
def baseScores (p : UserProfile) : Scores :=
  let mortgage : ℚ :=
    (if 50000 < p.total_tx then 0.3 else 0)
    + (if 10 < p.num_views ∧ 5 < p.unique_items then 0.25 else 0)
    + (if 7 < p.days_active then 0.2 else 0)
    + (if topCategoryRealEstate p then 0.25 else 0)
  let card : ℚ :=
    (if 5 < p.num_payments then 0.4 else 0)
    + (if 1000 < p.avg_tx ∧ p.avg_tx < 50000 then 0.3 else 0)
    + (if 3 < p.days_active then 0.2 else 0)
  let deposit : ℚ :=
    (if 100000 < p.total_tx then 0.5 else 0)
    + (if 10 < p.num_payments then 0.2 else 0)
    + (if 10000 < p.avg_tx then 0.2 else 0)
  let loan : ℚ :=
    (if 15 < p.num_views then 0.4 else 0)
    + (if 10 < p.unique_items then 0.3 else 0)
    + (if 5 < p.days_active then 0.2 else 0)
  let m := setScore zeroScores "Ипотека" (if 0 < mortgage then mortgage else 0.1)
  let m := setScore m "Кредитная карта" (if 0 < card then card else 0.2)
  let m := setScore m "Вклад" (if 0 < deposit then deposit else 0.15)
  let m := setScore m "Кредит" (if 0 < loan then loan else 0.1)
  setScore m "Дебетовая карта" (if 0 < p.num_payments ∨ 0 < p.num_views then 0.25 else 0.3)

/-- One pattern handed to `predict` / `_fallback_recommendations`: the
source accepts tuples of code strings or plain strings. -/
inductive PatternIn where
  | tup (codes : List String)
  | str (s : String)
deriving DecidableEq

/-- The string form a pattern takes in `_fallback_recommendations`
(`"→".join(p)` for tuples, the string itself otherwise). -/
def patternStr : PatternIn → String
  | .tup codes => "→".intercalate codes
  | .str s => s

/-- The event-code ratio bonuses of the `pattern_scores` block (lines
494-515 of `nbo_model.py`), run only when `total_events > 0`. -/
def patternRatioScores (viewRatio payRatio : ℚ) (viewCount payCount : ℕ) (m : Scores) :
    Scores :=
  if 0.5 < payRatio then
    let m := setScore m "Кредитная карта" 0.4
    let m := setScore m "Вклад" 0.3
    if 5 < payCount then setScore m "Вклад" 0.4 else m
  else if 0.6 < viewRatio then
    let m := setScore m "Ипотека" 0.35
    let m := setScore m "Кредит" 0.25
    if 10 < viewCount then setScore m "Ипотека" 0.45 else m
  else if (0.3 < viewRatio ∧ viewRatio < 0.6) ∧ (0.2 < payRatio ∧ payRatio < 0.5) then
    setScore (setScore m "Кредитная карта" 0.3) "Ипотека" 0.25
  else m

/-- The per-pattern shape bonuses of the `pattern_scores` block (lines
518-537), one loop iteration over a pattern string. -/
def patternShapeStep (payRatio : ℚ) (m : Scores) (ps : String) : Scores :=
  let m :=
    if containsSub "V→V→V" ps ∨ 3 ≤ countSub "V" ps then
      addScore (addScore m "Ипотека" 0.15) "Кредит" 0.1
    else m
  let m :=
    if containsSub "P→P→P" ps ∨ (3 ≤ countSub "P" ps ∧ 0.5 < payRatio) then
      addScore (addScore m "Кредитная карта" 0.2) "Вклад" 0.15
    else m
  let m :=
    if containsSub "V→P→V" ps ∨ containsSub "P→V→P" ps then
      addScore (addScore m "Ипотека" 0.2) "Кредит" 0.15
    else m
  if (ps.splitOn "→").length ≤ 3 ∧ containsSub "V" ps ∧ containsSub "P" ps then
    addScore (addScore m "Кредитная карта" 0.15) "Дебетовая карта" 0.1
  else m

/-- Embeds the `pattern_scores` block of `_fallback_recommendations`
(lines 476-544): event-code frequency ratios over the first 10 patterns,
per-pattern shape bonuses, and a diversity bonus. `pay_ratio` is written as
an unguarded division (zero denominator gives `0`), which agrees with the
source in every branch where it is actually read. -/
def patternScores (patterns : List PatternIn) : Scores :=
  if patterns.isEmpty then zeroScores
  else
    let pstrs := (patterns.take 10).map patternStr
    let combined := " | ".intercalate pstrs
    let viewCount := countSub "V" combined + countSub "view" combined
    let payCount := countSub "P" combined + countSub "pay" combined
    let clickCount := countSub "C" combined + countSub "click" combined
    let total := viewCount + payCount + clickCount
    let viewRatio : ℚ := (viewCount : ℚ) / (total : ℚ)
    let payRatio : ℚ := (payCount : ℚ) / (total : ℚ)
    let m := zeroScores
    let m :=
      if 0 < total then patternRatioScores viewRatio payRatio viewCount payCount m else m
    let m := pstrs.foldl (patternShapeStep payRatio) m
    if 5 < pstrs.dedup.length then addScore (addScore m "Ипотека" 0.1) "Кредит" 0.1 else m

/-- Outputs of the three networkx library calls `_fallback_recommendations`
makes on the behavior graph. networkx is external to the repository, so
these are unconstrained model parameters quantified over by the theorems:
`pagerank` models `nx.pagerank(graph, max_iter=100, weight="weight")` read
through `pagerank.get(node, 0)`, `descendantsOfStart` models
`list(nx.descendants(graph, "START"))`, and `simplePathLens` models the
lengths `len(p)` of the paths `nx.all_simple_paths(graph, "START", t,
cutoff=6)` for each target `t`. -/
structure NxSignals where
  pagerank : String → ℚ
  descendantsOfStart : List String
  simplePathLens : String → List ℕ

/-- The networkx signal bundle for a graph analysed with no usable library
output (zero pagerank, no descendants, no paths). -/
def zeroNxSignals : NxSignals :=
  { pagerank := fun _ => 0
    descendantsOfStart := []
    simplePathLens := fun _ => [] }

/-- Assoc-list counterpart of `d[k] = d.get(k, 0) + v` preserving insertion
order (for the `category_weights` / `brand_weights` dicts). -/
def bumpAssoc (l : List (String × ℚ)) (k : String) (v : ℚ) : List (String × ℚ) :=
  if l.any (fun e => e.1 = k) then l.map (fun e => if e.1 = k then (e.1, e.2 + v) else e)
  else l ++ [(k, v)]

/-- Important nodes of a given type with their pagerank importance, in node
order: the `item_nodes` / `brand_nodes` lists of the PageRank section
(importance strictly above the 0.01 threshold). -/
def importantNodes (g : BGraph) (pagerank : String → ℚ) (t : String) : List (String × ℚ) :=
  g.nodes.filterMap (fun nd =>
    if 0.01 < pagerank nd.1 ∧ nd.2.ntype.getD "unknown" = t then some (nd.1, pagerank nd.1)
    else none)

/-- The `category_weights` dict of the PageRank section: importance of
important item nodes summed per truthy `category_id` attribute, in node
order. (The graph builder never writes a `category_id` attribute — it writes
`category` — so on built graphs this dict stays empty; the definition
follows the scorer's code, which reads `category_id`.) -/
def categoryWeights (g : BGraph) (pagerank : String → ℚ) : List (String × ℚ) :=
  g.nodes.foldl (fun cw nd =>
    if 0.01 < pagerank nd.1 ∧ nd.2.ntype.getD "unknown" = "item" then
      match nd.2.category_id with
      | some c => if c ≠ "" then bumpAssoc cw c (pagerank nd.1) else cw
      | none => cw
    else cw) []

/-- The real-estate keywords scanned over the top categories in the
PageRank section. -/
def realEstateKeywords : List String := ["недвижимость", "ремонт", "дом", "квартира"]

/-- The node-type dominance bonuses of the PageRank section (lines
374-389 of `nbo_model.py`). -/
def prDominanceStage (itemNodes brandNodes : List (String × ℚ)) (m : Scores) : Scores :=
  let tii := (itemNodes.map Prod.snd).sum
  let tbi := (brandNodes.map Prod.snd).sum
  if tii * 1.5 < tbi then
    let m := setScore m "Кредитная карта" 0.4
    let m := setScore m "Вклад" 0.25
    if 5 < brandNodes.length then setScore m "Вклад" 0.35 else m
  else if tbi * 2 < tii then
    let m := setScore m "Ипотека" 0.3
    let m := setScore m "Кредит" 0.25
    if 10 < itemNodes.length then setScore m "Ипотека" 0.4 else m
  else m

/-- Embeds the PageRank analysis section of `_fallback_recommendations`
(`nbo_model.py`, lines 347-399): node-type dominance bonuses and the
top-category real-estate bonus `0.2 * weight` (first matching of the top 3
categories by weight). -/
def prSection (g : BGraph) (pagerank : String → ℚ) (m : Scores) : Scores :=
  let cw := categoryWeights g pagerank
  let m := prDominanceStage (importantNodes g pagerank "item")
    (importantNodes g pagerank "brand") m
  if cw.isEmpty then m
  else
    let top3 := (sortDescBy Prod.snd cw).take 3
    match top3.find? (fun e => realEstateKeywords.any (fun kw => containsSub kw (ruLower e.1))) with
    | some e => addScore m "Ипотека" (0.2 * e.2)
    | none => m

/-- Embeds the path-structure section of `_fallback_recommendations`
(lines 404-430): over the first 20 descendants of `START`, collect the
lengths of up to 3 simple paths each and award long-path and many-path
bonuses. -/
def pathSection (g : BGraph) (nxs : NxSignals) (m : Scores) : Scores :=
  if g.nodes.any (fun nd => nd.1 = "START") then
    if nxs.descendantsOfStart.isEmpty then m
    else
      let pathLengths :=
        (nxs.descendantsOfStart.take 20).flatMap (fun t => (nxs.simplePathLens t).take 3)
      if pathLengths.isEmpty then m
      else
        let avgLen : ℚ := ((pathLengths.map (fun n => (n : ℚ))).sum) / pathLengths.length
        let maxLen := pathLengths.foldl max 0
        let m :=
          if 4 < avgLen ∨ 5 < maxLen then addScore (addScore m "Ипотека" 0.25) "Кредит" 0.2
          else m
        if 15 < pathLengths.length then addScore m "Ипотека" 0.15 else m
  else m

/-- The value `nx.density(graph) if graph.number_of_nodes() > 1 else 0`
(`nx.density` of a digraph is `m / (n (n - 1))`). -/
def nxDensity (g : BGraph) : ℚ :=
  if 1 < g.nodes.length then
    (g.edges.length : ℚ) / ((g.nodes.length : ℚ) * ((g.nodes.length : ℚ) - 1))
  else 0

/-- Embeds the density / degree section of `_fallback_recommendations`
(lines 434-454). -/
def densitySection (g : BGraph) (m : Scores) : Scores :=
  let n := g.nodes.length
  let density : ℚ := nxDensity g
  let m :=
    if 0.3 < density then addScore (addScore m "Кредитная карта" 0.25) "Дебетовая карта" 0.2
    else if density < 0.2 ∧ 10 < n then addScore (addScore m "Ипотека" 0.2) "Кредит" 0.15
    else m
  let degrees := g.nodes.map (fun nd => g.degreeOf nd.1)
  if degrees.isEmpty then m
  else
    let avgDegree : ℚ := ((degrees.map (fun d => (d : ℚ))).sum) / degrees.length
    if 3 < avgDegree then addScore m "Кредитная карта" 0.2 else m

/-- Embeds the edge-weight section of `_fallback_recommendations`
(lines 459-468). -/
def edgeWeightSection (g : BGraph) (m : Scores) : Scores :=
  let ws := g.edges.map (fun e => e.2.2.weight)
  if ws.isEmpty then m
  else
    let avgW := ws.sum / ws.length
    let maxW := ws.foldl max (ws.headD 0)
    if 2 < avgW ∨ 5 < maxW then addScore (addScore m "Кредитная карта" 0.15) "Вклад" 0.1
    else m

/-- Embeds the `graph_scores` computation of `_fallback_recommendations`
(lines 340-473): empty when no graph is passed or the graph has no nodes,
otherwise the four analysis sections applied in order. -/
def graphScores (graph : Option BGraph) (nxs : NxSignals) : Scores :=
  match graph with
  | none => zeroScores
  | some g =>
    if g.nodes.length = 0 then zeroScores
    else edgeWeightSection g (densitySection g (pathSection g nxs (prSection g nxs.pagerank zeroScores)))

/-- Embeds the adaptive fusion-weight choice of `_fallback_recommendations`
(lines 598-613), returning `(base_weight, graph_weight, pattern_weight)`. -/
def adaptiveWeights (hasGraph hasPatterns : Bool) : ℚ × ℚ × ℚ :=
  if hasGraph && hasPatterns then (0.4, 0.35, 0.25)
  else if hasGraph then (0.5, 0.5, 0)
  else if hasPatterns then (0.6, 0, 0.4)
  else (1, 0, 0)

/-- The final clamp `if final_scores[product] > 1.0: final_scores[product] = 1.0`. -/
def clamp1 (v : ℚ) : ℚ := if 1 < v then 1 else v

/-- Embeds `NBOModel._fallback_recommendations` (`nbo_model.py`, lines
311-636) end to end: base, graph and pattern signals, availability-adaptive
fusion weights, clamping, stable descending sort (so ties keep catalog
order) and truncation to `top_k`. Each recommendation dict
`{"product": p, "score": s}` is modelled by the pair `(p, s)`. -/
def fallbackRecommendations (profile : UserProfile) (top_k : ℕ) (graph : Option BGraph)
    (nxs : NxSignals) (patterns : List PatternIn) : List (String × ℚ) :=
  let bs := baseScores profile
  let gs := graphScores graph nxs
  let ps := patternScores patterns
  let hasGraph := match graph with | none => false | some g => decide (0 < g.nodes.length)
  let hasPatterns := !patterns.isEmpty
  let w := adaptiveWeights hasGraph hasPatterns
  let finalScores := products.map (fun p => (p, clamp1 (bs p * w.1 + gs p * w.2.1 + ps p * w.2.2)))
  (sortDescBy Prod.snd finalScores).take top_k

/-- The state of the wrapped scikit-learn regressor pipeline, which is
external to the core: `fitted` models
`hasattr(self.model, "estimators_") and len(self.model.estimators_) > 0`,
and `predictScore` models the feature extraction, optional scaling and
`self.model.predict(X_scaled)[0]` inside the `try` block of
`NBOModel.predict`, with `.error` standing for any exception raised there. -/
structure MLModel where
  fitted : Bool
  predictScore : UserProfile → Except String ℚ

/-- Embeds `NBOModel.predict` (`nbo_model.py`, lines 240-309): route to the
fallback when the regressor is absent, untrained, or raises; otherwise score
every product with the regressor output (the source computes the same
`model.predict` value for each product), sort descending and truncate. -/
def nboPredict (model : Option MLModel) (profile : UserProfile) (top_k : ℕ)
    (graph : Option BGraph) (nxs : NxSignals) (patterns : List PatternIn) :
    List (String × ℚ) :=
  match model with
  | none => fallbackRecommendations profile top_k graph nxs patterns
  | some m =>
    if !m.fitted then fallbackRecommendations profile top_k graph nxs patterns
    else
      match m.predictScore profile with
      | .error _ => fallbackRecommendations profile top_k graph nxs patterns
      | .ok v => (sortDescBy Prod.snd (products.map (fun p => (p, v)))).take top_k

/-- The `CATEGORY_MAPPINGS` table of `src/utils/category_normalizer.py`
projected to its `"keywords"` lists (the only field `normalize_category` and
`check_category_match` read), in dict insertion order. -/
def categoryMappings : List (String × List String) :=
  [("electronics", ["electronics", "electronic", "tech", "technology", "gadget", "device",
      "электроника", "техника", "гаджет", "устройство", "смартфон"]),
   ("travel", ["travel", "trip", "tour", "hotel", "airline", "flight",
      "путешествие", "туризм", "отель", "авиабилет", "отпуск"]),
   ("auto", ["auto", "car", "vehicle", "fuel", "gas",
      "авто", "машина", "автомобиль", "бензин", "азс"]),
   ("real_estate", ["real estate", "property", "house", "renovation", "repair", "furniture",
      "недвижимость", "дом", "квартира", "ремонт", "мебель", "строительство"]),
   ("sport", ["sport", "sports", "fitness", "gym", "football", "soccer",
      "спорт", "фитнес", "футбол", "билет"]),
   ("health", ["health", "medical", "medicine", "pharmacy", "doctor",
      "здоровье", "медицина", "аптека", "врач", "лекарство"]),
   ("food", ["food", "foodstuff", "beverage", "grocery", "supermarket",
      "еда", "продукты", "напитки", "супермаркет", "продукты питания"]),
   ("finance", ["finance", "financial", "bank", "investment",
      "финансы", "банк", "инвестиции", "страхование"]),
   ("retail", ["retail", "shop", "store", "market",
      "розничная", "торговля", "магазин", "покупка"]),
   ("clothing", ["clothing", "clothes", "fashion", "apparel", "wear",
      "одежда", "мода", "наряды", "гардероб", "платье"]),
   ("children", ["children", "kids", "child", "baby", "toy", "toys",
      "дети", "детский", "ребенок", "малыш", "игрушки"]),
   ("beauty", ["beauty", "cosmetics", "makeup", "perfume", "skincare",
      "красота", "косметика", "макияж", "парфюмерия", "уход"]),
   ("books", ["books", "book", "literature", "reading",
      "книги", "книга", "литература", "чтение"]),
   ("home_appliances", ["appliance", "household", "refrigerator", "washing machine",
      "бытовая техника", "техника", "холодильник", "стиральная"]),
   ("furniture", ["furniture", "sofa", "chair", "table", "bed",
      "мебель", "диван", "стул", "стол", "кровать"]),
   ("garden", ["garden", "gardening", "plants", "flowers",
      "сад", "огород", "растения", "цветы"]),
   ("pets", ["pets", "pet", "dog", "cat", "animal",
      "питомцы", "животные", "собака", "кошка", "зоотовары"]),
   ("entertainment", ["entertainment", "games", "gaming", "console",
      "развлечения", "игры", "видеоигры", "консоль"]),
   ("education", ["education", "learning", "course", "training",
      "образование", "обучение", "курсы", "тренинг"]),
   ("music", ["music", "musical", "instrument", "guitar",
      "музыка", "музыкальный", "инструмент", "гитара"]),
   ("movies", ["movies", "cinema", "film", "dvd", "video",
      "фильмы", "кино", "фильм", "видео"]),
   ("home_textiles", ["textile", "bedding", "linen", "towels",
      "текстиль", "постельное белье", "белье", "полотенца"]),
   ("kitchen", ["kitchen", "cookware", "tableware", "dishes",
      "кухня", "посуда", "кухонная утварь", "тарелки"]),
   ("tools", ["tools", "tool", "equipment", "hardware",
      "инструменты", "инструмент", "оборудование"]),
   ("construction", ["construction", "building materials", "paint",
      "строительство", "стройматериалы", "краска", "обои"]),
   ("pharmacy", ["pharmacy", "medicines", "drugs", "vitamins",
      "аптека", "лекарства", "медикаменты", "витамины"]),
   ("jewelry", ["jewelry", "jewellery", "watch", "ring",
      "украшения", "ювелирные", "часы", "кольцо"]),
   ("sports_goods", ["sports goods", "sportswear", "sports equipment",
      "спорттовары", "спортивная одежда", "спортивное оборудование"])]

/-- Embeds `normalize_category` (`category_normalizer.py`, lines 188-211):
the first taxonomy entry whose name matches exactly, whose keywords contain
the lowered category, or one of whose keywords occurs in it as a substring;
the lowered category itself when nothing matches. -/
def normalizeCategory (category : String) : String :=
  if category = "" then ""
  else
    let cl := (ruLower category).trim
    match categoryMappings.find? (fun e =>
        cl = e.1 ∨ cl ∈ e.2 ∨ e.2.any (fun kw => containsSub kw cl)) with
    | some e => e.1
    | none => cl

/-- Embeds `check_category_match` (`category_normalizer.py`, lines 214-239).
A `None` category at a Python call site arrives here as `""`. -/
def checkCategoryMatch (category : String) (targets : List String) : Bool :=
  if category = "" then false
  else if normalizeCategory category ∈ targets then true
  else
    let cl := ruLower category
    targets.any (fun t =>
      match categoryMappings.lookup t with
      | some kws => kws.any (fun kw => containsSub kw cl)
      | none => false)

/-- The profile fields `RuleEngine.match_pattern` reads from its
`user_context` dict. -/
structure UserContext where
  top_category : Option String := none
  top_brand_category : Option String := none
deriving DecidableEq

/-- A rule dict `{"pattern", "product", "reason", "confidence"}`. -/
structure Rule where
  pattern : String
  product : String
  reason : String
  confidence : String
deriving DecidableEq

/-- A cached rule value `{"product", "reason", "confidence"}` stored in
`RuleEngine.rules`. -/
structure CacheEntry where
  product : String
  reason : String
  confidence : String
deriving DecidableEq

/-- Embeds the heuristic cascade of `RuleEngine.match_pattern`
(`src/modeling/rule_engine.py`, lines 94-343), evaluated in source order;
`none` when the whole `if user_context:` block is skipped or no heuristic
fires. -/
def ruleHeuristic (pattern : String) (ctx : Option UserContext) : Option Rule :=
  match ctx with
  | none => none
  | some c =>
    let topCat := c.top_category.getD ""
    let brandCat := c.top_brand_category.getD ""
    if checkCategoryMatch topCat ["food"] || checkCategoryMatch brandCat ["food"] then
      some ⟨pattern, "Дебетовая карта «Твой кэшбэк»",
        "Вы часто покупаете продукты питания. Эта карта дает повышенный кэшбэк в супермаркетах.",
        "высокая"⟩
    else if checkCategoryMatch topCat ["real_estate"] || checkCategoryMatch brandCat ["real_estate"] then
      some ⟨pattern, "Кредит на любые цели",
        "Мы заметили интерес к товарам для ремонта. Кредит поможет реализовать ваши планы быстрее.",
        "средняя"⟩
    else if checkCategoryMatch topCat ["electronics"] || checkCategoryMatch brandCat ["electronics"] then
      some ⟨pattern, "Кредитная карта «180 дней без %»",
        "Для покупок электроники отлично подойдет карта с длинным льготным периодом 180 дней.",
        "высокая"⟩
    else if checkCategoryMatch topCat ["auto"] || checkCategoryMatch brandCat ["auto"] then
      some ⟨pattern, "Кредитная карта «Двойной кэшбэк»",
        "Получайте кэшбэк за любые покупки, включая АЗС и автоуслуги.",
        "высокая"⟩
    else if checkCategoryMatch topCat ["travel"] || checkCategoryMatch brandCat ["travel"] then
      some ⟨pattern, "Пакет «Orange Premium Club»",
        "Для путешественников: доступ в бизнес-залы, страховка и особые привилегии.",
        "средняя"⟩
    else if checkCategoryMatch topCat ["sport"] || checkCategoryMatch brandCat ["sport"] then
      some ⟨pattern, "Клубная карта ПФК ЦСКА",
        "Специально для болельщиков: скидки на билеты и атрибутику, уникальный дизайн.",
        "высокая"⟩
    else if checkCategoryMatch topCat ["health", "sport"] || checkCategoryMatch brandCat ["health", "sport"] then
      some ⟨pattern, "Дебетовая карта «Только вперед»",
        "Кэшбэк 7% в категориях «Спорт» и «Аптеки». Заботьтесь о здоровье с выгодой.",
        "высокая"⟩
    else if containsSub "P→P→P" pattern && containsSub "high_value" pattern then
      some ⟨pattern, "Кредитная карта «180 дней без %»",
        "Длинный льготный период 180 дней идеален для крупных покупок и ремонта.",
        "средняя"⟩
    else if containsSub "high_value" pattern then
      some ⟨pattern, "Кредит на любые цели",
        "Для реализации больших планов. Выгодная ставка и удобное оформление.",
        "средняя"⟩
    else if containsSub "pay_bank" pattern || (topCat ≠ "" && containsSub "Bank" topCat) then
      some ⟨pattern, "Рефинансирование кредитов",
        "Объедините кредиты в один с выгодной ставкой. Платите меньше, живите лучше.",
        "средняя"⟩
    else if containsSub "low_balance" pattern then
      some ⟨pattern, "Экспресс-кредит «Турбоденьги»",
        "Деньги здесь и сейчас. Быстрое оформление без лишних документов.",
        "низкая"⟩
    else if containsSub "V_V_V" pattern || containsSub "V→V→V" pattern then
      some ⟨pattern, "Кредитная карта «100+»",
        "Вы активно выбираете товары. Кредитная карта позволит купить всё сразу без переплаты.",
        "низкая"⟩
    else if checkCategoryMatch topCat ["clothing"] || checkCategoryMatch brandCat ["clothing"] then
      some ⟨pattern, "Дебетовая карта «Твой кэшбэк»",
        "Повышенный кэшбэк на покупки одежды и аксессуаров. Зарабатывайте на каждом шопинге.",
        "средняя"⟩
    else if checkCategoryMatch topCat ["children"] || checkCategoryMatch brandCat ["children"] then
      some ⟨pattern, "Семейная ипотека",
        "Для семей с детьми предусмотрены специальные условия по ипотеке и льготные ставки.",
        "средняя"⟩
    else if checkCategoryMatch topCat ["beauty"] || checkCategoryMatch brandCat ["beauty"] then
      some ⟨pattern, "Дебетовая карта «Твой кэшбэк»",
        "Кэшбэк на косметику и средства ухода. Красота с выгодой.",
        "средняя"⟩
    else if checkCategoryMatch topCat ["books", "education"] || checkCategoryMatch brandCat ["books", "education"] then
      some ⟨pattern, "ПСБ Инвестиции",
        "Инвестируйте в свое будущее. Долгосрочные накопления с профессиональным управлением.",
        "средняя"⟩
    else if checkCategoryMatch topCat ["home_appliances", "furniture", "kitchen"] || checkCategoryMatch brandCat ["home_appliances", "furniture", "kitchen"] then
      some ⟨pattern, "Кредит на любые цели",
        "Для обустройства дома - выгодный кредит на покупку техники и мебели.",
        "высокая"⟩
    else if checkCategoryMatch topCat ["construction", "tools"] || checkCategoryMatch brandCat ["construction", "tools"] then
      some ⟨pattern, "Кредит на любые цели",
        "Кредит на ремонт и строительные материалы. Реализуйте планы по обустройству жилья.",
        "высокая"⟩
    else if checkCategoryMatch topCat ["pets"] || checkCategoryMatch brandCat ["pets"] then
      some ⟨pattern, "Накопительный счет «Про запас»",
        "Накопительный счет поможет отложить средства на регулярные расходы, включая уход за питомцами.",
        "низкая"⟩
    else if checkCategoryMatch topCat ["entertainment", "movies", "music"] || checkCategoryMatch brandCat ["entertainment", "movies", "music"] then
      some ⟨pattern, "Кредитная карта «180 дней без %»",
        "Для крупных покупок техники и развлечений - карта с длинным льготным периодом.",
        "средняя"⟩
    else if checkCategoryMatch topCat ["pharmacy"] || checkCategoryMatch brandCat ["pharmacy"] then
      some ⟨pattern, "Дебетовая карта «Только вперед»",
        "Кэшбэк 7% в аптеках. Заботьтесь о здоровье с выгодой.",
        "высокая"⟩
    else if checkCategoryMatch topCat ["jewelry"] || checkCategoryMatch brandCat ["jewelry"] then
      some ⟨pattern, "Вклад «Драгоценный»",
        "Специальный вклад для покупки драгоценных металлов с повышенной ставкой.",
        "средняя"⟩
    else none

/-- The parsed JSON object the oracle response may contain, as read through
`rule_data.get(...)` in `generate_rule_from_pattern`. -/
structure GptJson where
  product : String := ""
  confidence : Option String := none
  reason : Option String := none
deriving DecidableEq

/-- The generic product names rejected by `generate_rule_from_pattern`. -/
def genericProducts : List String :=
  ["Кредит", "Ипотека", "Кредитка", "Вклад", "Дебет", "Кредитная карта", "Дебетовая карта"]

/-- The pattern-shape fallback product of `generate_rule_from_pattern`. -/
def patternFallbackProduct (pattern : String) : String :=
  if containsSub "P" pattern || containsSub "R" pattern then "Кредит на любые цели"
  else if containsSub "V" pattern then "Кредитная карта «100+»"
  else "Дебетовая карта «Твой кэшбэк»"

/-- Embeds `generate_rule_from_pattern` (`src/features/rule_generator.py`,
lines 14-116). The external steps are parameters: `callGpt` models
`call_yandex_gpt` (`.error` = the call raised) and `parse` models the
regex search plus `json.loads` on the response (`.error` = `json.loads`
raised, `.ok none` = no JSON found). Any raise lands in the function's own
`except` branch, which returns the deterministic low-confidence fallback
rule; a missing JSON object yields the medium-confidence fallback. -/
def generateRuleFromPattern (callGpt : Except String String)
    (parse : String → Except String (Option GptJson)) (pattern : String) : Rule :=
  match callGpt with
  | .error _ => ⟨pattern, patternFallbackProduct pattern, "Ошибка при генерации", "низкая"⟩
  | .ok resp =>
    match parse resp with
    | .error _ => ⟨pattern, patternFallbackProduct pattern, "Ошибка при генерации", "низкая"⟩
    | .ok none => ⟨pattern, patternFallbackProduct pattern, "Общий паттерн поведения", "средняя"⟩
    | .ok (some j) =>
      let productName :=
        if j.product ∈ genericProducts ∨ j.product = "" then patternFallbackProduct pattern
        else j.product
      ⟨pattern, productName, j.reason.getD "На основе анализа паттерна",
        j.confidence.getD "средняя"⟩

/-- Embeds `RuleEngine.match_pattern` (`rule_engine.py`, lines 73-358):
exact cache hit first, then the heuristic cascade, then rule generation.
The `self.add_rule` cache writes do not affect the returned value and are
not modelled. -/
def matchPattern (cache : List (String × CacheEntry)) (callGpt : Except String String)
    (parse : String → Except String (Option GptJson)) (pattern : String)
    (ctx : Option UserContext) : Option Rule :=
  match cache.lookup pattern with
  | some e => some ⟨pattern, e.product, e.reason, e.confidence⟩
  | none =>
    match ruleHeuristic pattern ctx with
    | some r => some r
    | none => some (generateRuleFromPattern callGpt parse pattern)

/-! ## Helper lemmas -/

theorem sortDescBy_sorted {α β : Type} [LinearOrder β] (key : α → β) (l : List α) :
    List.Sorted (fun a b => key b ≤ key a) (sortDescBy key l) := by
  haveI : IsTotal α (fun a b => key b ≤ key a) := ⟨fun a b => le_total (key b) (key a)⟩
  haveI : IsTrans α (fun a b => key b ≤ key a) := ⟨fun a b c hab hbc => le_trans hbc hab⟩
  exact List.sorted_insertionSort _ l

theorem mem_sortDescBy {α β : Type} [LinearOrder β] {key : α → β} {l : List α} {x : α} :
    x ∈ sortDescBy key l ↔ x ∈ l :=
  List.mem_insertionSort _

theorem sortDescBy_perm {α β : Type} [LinearOrder β] (key : α → β) (l : List α) :
    (sortDescBy key l).Perm l :=
  List.perm_insertionSort _ l

theorem pairwise_orderedInsert_desc {α β : Type} [LinearOrder β] (key : α → β)
    (Q : α → α → Prop) (x : α) (s : List α)
    (hs : List.Sorted (fun a b => key b ≤ key a) s)
    (hp : s.Pairwise (fun a b => key b < key a ∨ (key a = key b ∧ Q a b)))
    (hq : ∀ y ∈ s, Q x y) :
    (List.orderedInsert (fun a b => key b ≤ key a) x s).Pairwise
      (fun a b => key b < key a ∨ (key a = key b ∧ Q a b)) := by
  induction s with
  | nil => simp
  | cons y ys ih =>
    obtain ⟨hy, hp'⟩ := List.pairwise_cons.mp hp
    simp only [List.orderedInsert]
    by_cases hxy : key y ≤ key x
    · rw [if_pos hxy]
      refine List.Pairwise.cons ?_ hp
      intro z hz
      have hzx : key z ≤ key x := by
        rcases List.mem_cons.mp hz with rfl | hz'
        · exact hxy
        · exact le_trans (List.rel_of_sorted_cons hs z hz') hxy
      rcases lt_or_eq_of_le hzx with hlt | heq
      · exact Or.inl hlt
      · exact Or.inr ⟨heq.symm, hq z hz⟩
    · rw [if_neg hxy]
      refine List.Pairwise.cons ?_
        (ih hs.of_cons hp' (fun z hz => hq z (List.mem_cons_of_mem _ hz)))
      intro z hz
      rcases (List.mem_orderedInsert _).mp hz with rfl | hz'
      · exact Or.inl (not_le.mp hxy)
      · exact hy z hz'

/-- Stability of the descending sort: any pairwise relation holding on the
input (for pairs in input order) survives on the output wherever keys tie. -/
theorem pairwise_sortDescBy {α β : Type} [LinearOrder β] (key : α → β)
    (Q : α → α → Prop) (l : List α) (h : l.Pairwise Q) :
    (sortDescBy key l).Pairwise (fun a b => key b < key a ∨ (key a = key b ∧ Q a b)) := by
  induction l with
  | nil => simp [sortDescBy]
  | cons x xs ih =>
    obtain ⟨hx, h'⟩ := List.pairwise_cons.mp h
    show (List.orderedInsert _ x (sortDescBy key xs)).Pairwise _
    refine pairwise_orderedInsert_desc key Q x _ (sortDescBy_sorted key xs) (ih h') ?_
    intro y hy
    exact hx y (mem_sortDescBy.mp hy)

theorem foldl_preserves {α γ : Type} (P : γ → Prop) (f : γ → α → γ)
    (hf : ∀ acc a, P acc → P (f acc a)) :
    ∀ (l : List α) (init : γ), P init → P (l.foldl f init) := by
  intro l
  induction l with
  | nil => intro init h; exact h
  | cons a l ih => intro init h; exact ih (f init a) (hf init a h)

/-- All values of a score dictionary are non-negative. -/
def NonnegScores (m : Scores) : Prop := ∀ s, 0 ≤ m s

theorem nonneg_zeroScores : NonnegScores zeroScores := fun _ => le_refl 0

theorem nonneg_addScore {m : Scores} {v : ℚ} (hm : NonnegScores m) (hv : 0 ≤ v)
    (k : String) : NonnegScores (addScore m k v) := by
  intro s
  unfold addScore
  split
  · exact add_nonneg (hm k) hv
  · exact hm s

theorem nonneg_setScore {m : Scores} {v : ℚ} (hm : NonnegScores m) (hv : 0 ≤ v)
    (k : String) : NonnegScores (setScore m k v) := by
  intro s
  unfold setScore
  split
  · exact hv
  · exact hm s

theorem nonneg_ite {c : Prop} [Decidable c] {A B : Scores} (hA : NonnegScores A)
    (hB : NonnegScores B) : NonnegScores (if c then A else B) := by
  split
  · exact hA
  · exact hB

theorem baseScores_nonneg (p : UserProfile) : NonnegScores (baseScores p) := by
  have hpos : ∀ (x c : ℚ), 0 ≤ c → 0 ≤ (if 0 < x then x else c) := by
    intro x c hc
    split
    · exact le_of_lt (by assumption)
    · exact hc
  unfold baseScores
  refine nonneg_setScore (nonneg_setScore (nonneg_setScore (nonneg_setScore
    (nonneg_setScore nonneg_zeroScores (hpos _ _ (by norm_num)) _)
    (hpos _ _ (by norm_num)) _) (hpos _ _ (by norm_num)) _)
    (hpos _ _ (by norm_num)) _) ?_ _
  split <;> norm_num

theorem patternRatioScores_nonneg (vr pr : ℚ) (vc pc : ℕ) {m : Scores}
    (hm : NonnegScores m) : NonnegScores (patternRatioScores vr pr vc pc m) := by
  unfold patternRatioScores
  repeat' split
  all_goals
    repeat'
      first
      | assumption
      | refine nonneg_setScore ?_ (by norm_num) _

theorem patternShapeStep_nonneg (pr : ℚ) {m : Scores} (hm : NonnegScores m)
    (ps : String) : NonnegScores (patternShapeStep pr m ps) := by
  unfold patternShapeStep
  repeat' split
  all_goals
    repeat'
      first
      | assumption
      | refine nonneg_addScore ?_ (by norm_num) _

theorem patternScores_nonneg (patterns : List PatternIn) :
    NonnegScores (patternScores patterns) := by
  unfold patternScores
  split
  · exact nonneg_zeroScores
  · dsimp only
    have hfold : ∀ (pr : ℚ) (pstrs : List String) (m0 : Scores), NonnegScores m0 →
        NonnegScores (pstrs.foldl (patternShapeStep pr) m0) :=
      fun pr pstrs m0 hm0 =>
        foldl_preserves NonnegScores _ (fun acc a h => patternShapeStep_nonneg pr h a)
          pstrs m0 hm0
    split
    · refine nonneg_addScore (nonneg_addScore (hfold _ _ _ ?_) (by norm_num) _)
        (by norm_num) _
      split
      · exact patternRatioScores_nonneg _ _ _ _ nonneg_zeroScores
      · exact nonneg_zeroScores
    · refine hfold _ _ _ ?_
      split
      · exact patternRatioScores_nonneg _ _ _ _ nonneg_zeroScores
      · exact nonneg_zeroScores

theorem bumpAssoc_nonneg {l : List (String × ℚ)} {v : ℚ}
    (hl : ∀ e ∈ l, 0 ≤ e.2) (hv : 0 ≤ v) (k : String) :
    ∀ e ∈ bumpAssoc l k v, 0 ≤ e.2 := by
  intro e he
  unfold bumpAssoc at he
  split at he
  · obtain ⟨a, ha, rfl⟩ := List.mem_map.mp he
    split
    · exact add_nonneg (hl a ha) hv
    · exact hl a ha
  · rcases List.mem_append.mp he with h | h
    · exact hl e h
    · rw [List.mem_singleton.mp h]
      exact hv

theorem categoryWeights_nonneg (g : BGraph) (pagerank : String → ℚ) :
    ∀ e ∈ categoryWeights g pagerank, 0 ≤ e.2 := by
  unfold categoryWeights
  refine foldl_preserves (fun cw : List (String × ℚ) => ∀ e ∈ cw, 0 ≤ e.2) _ ?_ g.nodes []
    (by intro e he; cases he)
  intro acc nd hacc
  dsimp only
  split
  · rename_i hcond
    cases hc : nd.2.category_id with
    | none => simpa [hc] using hacc
    | some c =>
      simp only [hc]
      split
      · exact bumpAssoc_nonneg hacc (le_of_lt (lt_trans (by norm_num) hcond.1)) c
      · exact hacc
  · exact hacc

theorem prDominanceStage_nonneg (itemNodes brandNodes : List (String × ℚ)) {m : Scores}
    (hm : NonnegScores m) : NonnegScores (prDominanceStage itemNodes brandNodes m) := by
  unfold prDominanceStage
  dsimp only
  split
  · split
    · exact nonneg_setScore (nonneg_setScore (nonneg_setScore hm (by norm_num) _)
        (by norm_num) _) (by norm_num) _
    · exact nonneg_setScore (nonneg_setScore hm (by norm_num) _) (by norm_num) _
  · split
    · split
      · exact nonneg_setScore (nonneg_setScore (nonneg_setScore hm (by norm_num) _)
          (by norm_num) _) (by norm_num) _
      · exact nonneg_setScore (nonneg_setScore hm (by norm_num) _) (by norm_num) _
    · exact hm

theorem prSection_nonneg (g : BGraph) (pagerank : String → ℚ) {m : Scores}
    (hm : NonnegScores m) : NonnegScores (prSection g pagerank m) := by
  unfold prSection
  dsimp only
  have hmid := prDominanceStage_nonneg (importantNodes g pagerank "item")
    (importantNodes g pagerank "brand") hm
  split
  · exact hmid
  · split
    · rename_i e hfind
      have hew : 0 ≤ e.2 := by
        have hmem : e ∈ (sortDescBy Prod.snd (categoryWeights g pagerank)).take 3 :=
          List.mem_of_find?_eq_some hfind
        have hmem2 : e ∈ categoryWeights g pagerank :=
          mem_sortDescBy.mp ((List.take_subset _ _) hmem)
        exact categoryWeights_nonneg g pagerank e hmem2
      exact nonneg_addScore hmid (by positivity) _
    · exact hmid

theorem pathSection_nonneg (g : BGraph) (nxs : NxSignals) {m : Scores}
    (hm : NonnegScores m) : NonnegScores (pathSection g nxs m) := by
  have hmid : ∀ {m2 : Scores} {c : Prop} [Decidable c], NonnegScores m2 →
      NonnegScores (if c then addScore (addScore m2 "Ипотека" 0.25) "Кредит" 0.2 else m2) := by
    intro m2 c hc hm2
    split
    · exact nonneg_addScore (nonneg_addScore hm2 (by norm_num) _) (by norm_num) _
    · exact hm2
  unfold pathSection
  dsimp only
  split
  · split
    · exact hm
    · split
      · exact hm
      · split
        · exact nonneg_addScore (hmid hm) (by norm_num) _
        · exact hmid hm
  · exact hm

theorem densitySection_nonneg (g : BGraph) {m : Scores} (hm : NonnegScores m) :
    NonnegScores (densitySection g m) := by
  have hmid : NonnegScores (if 0.3 < nxDensity g then
        addScore (addScore m "Кредитная карта" 0.25) "Дебетовая карта" 0.2
      else if nxDensity g < 0.2 ∧ 10 < g.nodes.length then
        addScore (addScore m "Ипотека" 0.2) "Кредит" 0.15
      else m) := by
    split
    · exact nonneg_addScore (nonneg_addScore hm (by norm_num) _) (by norm_num) _
    · split
      · exact nonneg_addScore (nonneg_addScore hm (by norm_num) _) (by norm_num) _
      · exact hm
  unfold densitySection
  dsimp only
  split
  · exact hmid
  · split
    · exact nonneg_addScore hmid (by norm_num) _
    · exact hmid

theorem edgeWeightSection_nonneg (g : BGraph) {m : Scores} (hm : NonnegScores m) :
    NonnegScores (edgeWeightSection g m) := by
  unfold edgeWeightSection
  dsimp only
  split
  · exact hm
  · split
    · exact nonneg_addScore (nonneg_addScore hm (by norm_num) _) (by norm_num) _
    · exact hm

theorem graphScores_nonneg (graph : Option BGraph) (nxs : NxSignals) :
    NonnegScores (graphScores graph nxs) := by
  unfold graphScores
  cases graph with
  | none => exact nonneg_zeroScores
  | some g =>
    dsimp only
    split
    · exact nonneg_zeroScores
    · exact edgeWeightSection_nonneg g (densitySection_nonneg g
        (pathSection_nonneg g nxs (prSection_nonneg g nxs.pagerank nonneg_zeroScores)))

theorem keys_addNode (g : BGraph) (id : String) (d : NodeData) :
    (g.addNode id d).keys = g.keys ∨ (g.addNode id d).keys = g.keys ++ [id] := by
  unfold BGraph.addNode
  split
  · left
    unfold BGraph.keys
    dsimp only
    rw [List.map_map]
    refine List.map_congr_left ?_
    intro nd _
    dsimp only [Function.comp]
    split
    · rename_i h
      exact h.symm
    · rfl
  · right
    unfold BGraph.keys
    dsimp only
    rw [List.map_append]
    rfl

theorem keys_addNode_eq_of_any (g : BGraph) (id : String) (d : NodeData)
    (h : g.nodes.any (fun nd => nd.1 = id) = true) : (g.addNode id d).keys = g.keys := by
  unfold BGraph.addNode
  rw [if_pos h]
  unfold BGraph.keys
  dsimp only
  rw [List.map_map]
  refine List.map_congr_left ?_
  intro nd _
  dsimp only [Function.comp]
  split
  · rename_i hh
    exact hh.symm
  · rfl

theorem keys_addNode_eq_of_not_any (g : BGraph) (id : String) (d : NodeData)
    (h : ¬ g.nodes.any (fun nd => nd.1 = id) = true) :
    (g.addNode id d).keys = g.keys ++ [id] := by
  unfold BGraph.addNode
  rw [if_neg h]
  unfold BGraph.keys
  dsimp only
  rw [List.map_append]
  rfl

theorem edges_addNode (g : BGraph) (id : String) (d : NodeData) :
    (g.addNode id d).edges = g.edges := by
  unfold BGraph.addNode
  split <;> rfl

theorem epairs_addNode (g : BGraph) (id : String) (d : NodeData) :
    (g.addNode id d).epairs = g.epairs := by
  unfold BGraph.epairs
  rw [edges_addNode]

theorem nodes_bumpEdgeWeight (g : BGraph) (a b : String) (w : ℚ) :
    (g.bumpEdgeWeight a b w).nodes = g.nodes := rfl

theorem epairs_bumpEdgeWeight (g : BGraph) (a b : String) (w : ℚ) :
    (g.bumpEdgeWeight a b w).epairs = g.epairs := by
  unfold BGraph.epairs BGraph.bumpEdgeWeight
  dsimp only
  rw [List.map_map]
  refine List.map_congr_left ?_
  intro e _
  dsimp only [Function.comp]
  split <;> rfl

theorem nodes_addEdge (g : BGraph) (a b : String) (d : EdgeData) :
    (g.addEdge a b d).nodes = g.nodes := rfl

theorem epairs_addEdge (g : BGraph) (a b : String) (d : EdgeData) :
    (g.addEdge a b d).epairs = g.epairs ++ [(a, b)] := by
  unfold BGraph.epairs BGraph.addEdge
  dsimp only
  rw [List.map_append]
  rfl

theorem hasEdge_iff (g : BGraph) (a b : String) :
    g.hasEdge a b = true ↔ (a, b) ∈ g.epairs := by
  unfold BGraph.hasEdge BGraph.epairs
  rw [List.any_eq_true]
  constructor
  · rintro ⟨e, he, hcond⟩
    rw [decide_eq_true_eq] at hcond
    refine List.mem_map.mpr ⟨e, he, ?_⟩
    rw [hcond.1, hcond.2]
  · intro h
    obtain ⟨e, he, heq⟩ := List.mem_map.mp h
    refine ⟨e, he, ?_⟩
    rw [decide_eq_true_eq]
    exact ⟨congrArg Prod.fst heq, congrArg Prod.snd heq⟩

/-- The edge-phase relation between graph states: nodes untouched, old edge
pairs kept, pair-uniqueness preserved. -/
def EdgeExtend (g g2 : BGraph) : Prop :=
  g2.nodes = g.nodes ∧ (∀ pr ∈ g.epairs, pr ∈ g2.epairs) ∧
    (g.epairs.Nodup → g2.epairs.Nodup)

theorem edgeExtend_refl (g : BGraph) : EdgeExtend g g :=
  ⟨rfl, fun _ h => h, fun h => h⟩

theorem edgeExtend_trans {g1 g2 g3 : BGraph} (h12 : EdgeExtend g1 g2)
    (h23 : EdgeExtend g2 g3) : EdgeExtend g1 g3 :=
  ⟨h23.1.trans h12.1, fun pr hpr => h23.2.1 pr (h12.2.1 pr hpr),
   fun h => h23.2.2 (h12.2.2 h)⟩

theorem edgeExtend_bump (g : BGraph) (a b : String) (w : ℚ) :
    EdgeExtend g (g.bumpEdgeWeight a b w) := by
  refine ⟨nodes_bumpEdgeWeight g a b w, ?_, ?_⟩
  · rw [epairs_bumpEdgeWeight]
    exact fun _ h => h
  · rw [epairs_bumpEdgeWeight]
    exact fun h => h

theorem edgeExtend_addEdge (g : BGraph) (a b : String) (d : EdgeData)
    (h : ¬ g.hasEdge a b = true) : EdgeExtend g (g.addEdge a b d) := by
  refine ⟨nodes_addEdge g a b d, ?_, ?_⟩
  · rw [epairs_addEdge]
    exact fun pr hpr => List.mem_append.mpr (Or.inl hpr)
  · rw [epairs_addEdge]
    intro hnd
    have hnotmem : (a, b) ∉ g.epairs := fun hmem => h ((hasEdge_iff g a b).mpr hmem)
    simp only [List.nodup_append, List.nodup_cons, List.not_mem_nil, not_false_iff,
      List.nodup_nil, and_true, List.disjoint_singleton]
    exact ⟨hnd, trivial, hnotmem⟩

/-- The invariant maintained by the graph loop: exactly one `START` node,
at most one edge per ordered node pair, and a `START` edge into every other
node. -/
def goodGraph (g : BGraph) : Prop :=
  g.keys.count "START" = 1 ∧ g.epairs.Nodup ∧
    ∀ n ∈ g.keys, n ≠ "START" → ("START", n) ∈ g.epairs

theorem edgeExtend_innerFold (windowHours : ℚ) (events : List BEvent) (ie : ℕ × BEvent)
    (nid : String) (g : BGraph) :
    EdgeExtend g ((predsWindow events ie.1).foldl (fun g pe =>
      let timeDiff := ie.2.timestamp - pe.timestamp
      if 0 < timeDiff ∧ timeDiff < windowHours * 3600 then
        match nodeInfoOf pe with
        | none => g
        | some (pn, _) =>
          if g.hasEdge pn nid then g.bumpEdgeWeight pn nid ie.2.weight
          else g.addEdge pn nid { weight := ie.2.weight, time_diff := some timeDiff }
      else g) g) := by
  refine foldl_preserves (fun g2 => EdgeExtend g g2) _ ?_ _ g (edgeExtend_refl g)
  intro acc pe hacc
  dsimp only
  split
  · cases hni : nodeInfoOf pe with
    | none => exact hacc
    | some pnd =>
      obtain ⟨pn, pd⟩ := pnd
      dsimp only
      split
      · exact edgeExtend_trans hacc (edgeExtend_bump acc pn nid ie.2.weight)
      · rename_i hne
        exact edgeExtend_trans hacc (edgeExtend_addEdge acc pn nid _ hne)
  · exact hacc

theorem processEvent_good (windowHours : ℚ) (events : List BEvent) (g : BGraph)
    (ie : ℕ × BEvent) (hg : goodGraph g) : goodGraph (processEvent windowHours events g ie) := by
  obtain ⟨hcnt, hnd, hmem⟩ := hg
  unfold processEvent
  cases hni : nodeInfoOf ie.2 with
  | none => exact ⟨hcnt, hnd, hmem⟩
  | some nidnd =>
    obtain ⟨nid, nd⟩ := nidnd
    dsimp only
    have hk1 : (g.addNode nid nd).keys = g.keys ∨
        ((g.addNode nid nd).keys = g.keys ++ [nid] ∧ nid ∉ g.keys) := by
      by_cases hany : g.nodes.any (fun nd2 => nd2.1 = nid) = true
      · exact Or.inl (keys_addNode_eq_of_any g nid nd hany)
      · refine Or.inr ⟨keys_addNode_eq_of_not_any g nid nd hany, ?_⟩
        intro hmemk
        refine hany ?_
        rw [List.any_eq_true]
        obtain ⟨x, hx, hfst⟩ := List.mem_map.mp hmemk
        exact ⟨x, hx, by rw [decide_eq_true_eq]; exact hfst⟩
    have hep1 : (g.addNode nid nd).epairs = g.epairs := epairs_addNode g nid nd
    have hext : EdgeExtend (g.addNode nid nd) _ :=
      edgeExtend_innerFold windowHours events ie nid (g.addNode nid nd)
    set g2 := (predsWindow events ie.1).foldl _ (g.addNode nid nd) with hg2def
    have hk2 : g2.keys = (g.addNode nid nd).keys := by
      unfold BGraph.keys
      rw [hext.1]
    have hcnt2 : g2.keys.count "START" = 1 := by
      rw [hk2]
      rcases hk1 with h | ⟨h, hnin⟩
      · rw [h]; exact hcnt
      · rw [h, List.count_append]
        have : nid ≠ "START" := by
          intro heq
          refine hnin ?_
          have : (0 : ℕ) < g.keys.count "START" := by rw [hcnt]; norm_num
          rw [← heq] at this
          exact List.count_pos_iff.mp this
        simp [List.count_singleton, this, hcnt]
    have hsup : ∀ pr ∈ g.epairs, pr ∈ g2.epairs := by
      intro pr hpr
      refine hext.2.1 pr ?_
      rw [hep1]
      exact hpr
    have hnd2 : g2.epairs.Nodup := hext.2.2 (by rw [hep1]; exact hnd)
    have hkeyscases : ∀ n ∈ g2.keys, n ∈ g.keys ∨ n = nid := by
      intro n hn
      rw [hk2] at hn
      rcases hk1 with h | ⟨h, _⟩
      · rw [h] at hn; exact Or.inl hn
      · rw [h] at hn
        rcases List.mem_append.mp hn with h1 | h1
        · exact Or.inl h1
        · exact Or.inr (List.mem_singleton.mp h1)
    split
    · rename_i hhas
      refine ⟨hcnt2, hnd2, ?_⟩
      intro n hn hne
      rcases hkeyscases n hn with h | rfl
      · exact hsup _ (hmem n h hne)
      · exact (hasEdge_iff g2 "START" n).mp hhas
    · rename_i hhas
      refine ⟨?_, ?_, ?_⟩
      · unfold BGraph.keys at hcnt2 ⊢
        rw [nodes_addEdge]
        exact hcnt2
      · rw [epairs_addEdge]
        have hnotmem : ("START", nid) ∉ g2.epairs :=
          fun hmem2 => hhas ((hasEdge_iff g2 "START" nid).mpr hmem2)
        simp only [List.nodup_append, List.nodup_cons, List.not_mem_nil, not_false_iff,
          List.nodup_nil, and_true, List.disjoint_singleton]
        exact ⟨hnd2, trivial, hnotmem⟩
      · intro n hn hne
        rw [epairs_addEdge]
        have hn2 : n ∈ g2.keys := by
          unfold BGraph.keys at hn ⊢
          rw [nodes_addEdge] at hn
          exact hn
        rcases hkeyscases n hn2 with h | rfl
        · exact List.mem_append.mpr (Or.inl (hsup _ (hmem n h hne)))
        · exact List.mem_append.mpr (Or.inr (List.mem_singleton.mpr rfl))

/-- Relation between a processed prefix and the Counter accumulator:
distinct keys, keys are exactly the seen elements, counts are exact. -/
def CounterInv (pre : List (List String)) (acc : List (List String × ℕ)) : Prop :=
  (acc.map Prod.fst).Nodup ∧ (∀ p, p ∈ acc.map Prod.fst ↔ p ∈ pre) ∧
    ∀ e ∈ acc, e.2 = pre.count e.1

theorem bumpCount_inv {pre : List (List String)} {acc : List (List String × ℕ)}
    (h : CounterInv pre acc) (x : List String) : CounterInv (pre ++ [x]) (bumpCount acc x) := by
  obtain ⟨hnd, hiff, hval⟩ := h
  unfold bumpCount
  split
  · rename_i hany
    have hxk : x ∈ acc.map Prod.fst := by
      rw [List.any_eq_true] at hany
      obtain ⟨e, he, hcond⟩ := hany
      rw [decide_eq_true_eq] at hcond
      exact List.mem_map.mpr ⟨e, he, hcond⟩
    have hkeys : (acc.map (fun e => if e.1 = x then (e.1, e.2 + 1) else e)).map Prod.fst =
        acc.map Prod.fst := by
      rw [List.map_map]
      refine List.map_congr_left ?_
      intro e _
      dsimp only [Function.comp]
      split <;> rfl
    refine ⟨by rw [hkeys]; exact hnd, ?_, ?_⟩
    · intro p
      rw [hkeys, List.mem_append, List.mem_singleton, hiff]
      constructor
      · exact Or.inl
      · rintro (h | rfl)
        · exact h
        · exact (hiff p).mp hxk
    · intro e he
      obtain ⟨e0, he0, heq⟩ := List.mem_map.mp he
      by_cases hex : e0.1 = x
      · rw [if_pos hex] at heq
        rw [← heq]
        dsimp only
        rw [List.count_append, hval e0 he0, hex]
        simp
      · rw [if_neg hex] at heq
        rw [← heq, List.count_append, hval e0 he0]
        have : [x].count e0.1 = 0 := by
          rw [List.count_eq_zero]
          intro hc
          exact hex (List.mem_singleton.mp hc)
        rw [this, Nat.add_zero]
  · rename_i hany
    have hxk : x ∉ acc.map Prod.fst := by
      intro hc
      refine hany ?_
      obtain ⟨e, he, hfst⟩ := List.mem_map.mp hc
      rw [List.any_eq_true]
      exact ⟨e, he, by rw [decide_eq_true_eq]; exact hfst⟩
    have hxpre : x ∉ pre := fun hc => hxk ((hiff x).mpr hc)
    refine ⟨?_, ?_, ?_⟩
    · rw [List.map_append]
      simp only [List.nodup_append, List.map_cons, List.map_nil, List.nodup_cons,
        List.not_mem_nil, not_false_iff, List.nodup_nil, and_true, List.disjoint_singleton]
      exact ⟨hnd, trivial, hxk⟩
    · intro p
      rw [List.map_append, List.mem_append, List.mem_append]
      simp only [List.map_cons, List.map_nil, List.mem_singleton]
      rw [hiff]
    · intro e he
      rcases List.mem_append.mp he with h1 | h1
      · rw [List.count_append, hval e h1]
        have : [x].count e.1 = 0 := by
          rw [List.count_eq_zero]
          intro hc
          refine hxk ?_
          rw [← (List.mem_singleton.mp hc)]
          exact List.mem_map.mpr ⟨e, h1, rfl⟩
        rw [this, Nat.add_zero]
      · rw [List.mem_singleton.mp h1]
        dsimp only
        rw [List.count_append, List.count_eq_zero.mpr hxpre]
        simp
theorem counterInv_foldl : ∀ (l pre : List (List String)) (acc : List (List String × ℕ)),
    CounterInv pre acc → CounterInv (pre ++ l) (l.foldl bumpCount acc) := by
  intro l
  induction l with
  | nil => intro pre acc h; simpa using h
  | cons x xs ih =>
    intro pre acc h
    have h2 := ih (pre ++ [x]) (bumpCount acc x) (bumpCount_inv h x)
    rw [List.append_assoc] at h2
    simpa using h2

theorem counterOf_inv (l : List (List String)) : CounterInv l (counterOf l) := by
  have h := counterInv_foldl l [] [] ⟨List.nodup_nil, by simp, by simp⟩
  simpa using h

theorem mem_counterOf {l : List (List String)} {p : List String} {c : ℕ}
    (h : (p, c) ∈ counterOf l) : p ∈ l ∧ c = l.count p := by
  obtain ⟨_, hiff, hval⟩ := counterOf_inv l
  exact ⟨(hiff p).mp (List.mem_map.mpr ⟨(p, c), h, rfl⟩), hval (p, c) h⟩

theorem length_of_mem_windows {seq : List String} {len : ℕ} {p : List String}
    (h : p ∈ windowsOfLen seq len) : p.length = len := by
  obtain ⟨i, hi, rfl⟩ := List.mem_map.mp h
  rw [List.mem_range] at hi
  unfold listSlice
  rw [List.length_take, List.length_drop]
  omega

theorem count_windows_eq_occ {seq : List String} {p : List String} :
    (windowsOfLen seq p.length).count p = occCount seq p := by
  unfold windowsOfLen occCount
  rw [List.count_eq_countP, List.countP_map, List.countP_eq_length_filter]
  refine congrArg _ ?_
  refine List.filter_congr ?_
  intro i _
  dsimp only [Function.comp]
  by_cases hx : listSlice seq i p.length = p
  · simp [hx]
  · simp [hx]

theorem count_windows_eq_zero {seq : List String} {len : ℕ} {p : List String}
    (h : len ≠ p.length) : (windowsOfLen seq len).count p = 0 := by
  rw [List.count_eq_zero]
  intro hc
  exact h (length_of_mem_windows hc).symm

theorem count_flatMap_windows (seq : List String) (p : List String) :
    ∀ lens : List ℕ, ((lens.flatMap (windowsOfLen seq)).count p) =
      lens.count p.length * occCount seq p := by
  intro lens
  induction lens with
  | nil => simp
  | cons len rest ih =>
    rw [List.flatMap_cons, List.count_append, ih]
    by_cases hl : len = p.length
    · subst hl
      rw [count_windows_eq_occ, List.count_cons_self]
      ring
    · rw [count_windows_eq_zero hl, List.count_cons_of_ne (fun hc => hl hc.symm)]
      ring

theorem mem_findFrequentPatterns_single {seq p : List String} {c minLen minSupport : ℕ}
    (h : (p, c) ∈ findFrequentPatterns [seq] minLen minSupport) :
    minLen ≤ p.length ∧ p.length ≤ 5 ∧ minSupport ≤ c ∧ c = occCount seq p := by
  unfold findFrequentPatterns at h
  rw [mem_sortDescBy] at h
  have hmem := List.mem_filter.mp h
  have hsup : minSupport ≤ c := by
    have := hmem.2
    rwa [decide_eq_true_eq] at this
  obtain ⟨hpmem, hcount⟩ := mem_counterOf hmem.1
  have hall : allPatterns [seq] minLen = (minedLengths seq minLen).flatMap (windowsOfLen seq) := by
    simp [allPatterns]
  rw [hall] at hpmem hcount
  obtain ⟨len, hlen, hpw⟩ := List.mem_flatMap.mp hpmem
  have hplen : p.length = len := length_of_mem_windows hpw
  have hlenmem : p.length ∈ minedLengths seq minLen := by
    rw [hplen]
    exact hlen
  have hrange := (List.mem_range'_1).mp hlenmem
  have hmin : min (seq.length + 1) 6 ≤ 6 := min_le_right _ _
  refine ⟨hrange.1, by omega, hsup, ?_⟩
  rw [hcount, count_flatMap_windows]
  unfold minedLengths
  rw [List.count_eq_one_of_mem (List.nodup_range' _ _) hlenmem, one_mul]

theorem mem_findFrequentPatterns_mono {sequences : List (List String)}
    {minLen s1 s2 : ℕ} (hs : s1 ≤ s2) {e : List String × ℕ}
    (h : e ∈ findFrequentPatterns sequences minLen s2) :
    e ∈ findFrequentPatterns sequences minLen s1 := by
  unfold findFrequentPatterns at h ⊢
  rw [mem_sortDescBy] at h ⊢
  have hmem := List.mem_filter.mp h
  refine List.mem_filter.mpr ⟨hmem.1, ?_⟩
  rw [decide_eq_true_eq]
  have := hmem.2
  rw [decide_eq_true_eq] at this
  exact le_trans hs this

theorem buildBehaviorGraph_good (userId : String) (events0 : List BEvent)
    (windowHours : ℚ) : goodGraph (buildBehaviorGraph userId events0 windowHours) := by
  unfold buildBehaviorGraph
  refine foldl_preserves goodGraph _ ?_ _ _ ?_
  · intro acc ie hacc
    exact processEvent_good windowHours _ acc ie hacc
  · refine ⟨?_, ?_, ?_⟩
    · rfl
    · exact List.nodup_nil
    · intro n hn hne
      unfold BGraph.keys at hn
      simp only [List.map_cons, List.map_nil, List.mem_singleton] at hn
      exact absurd hn hne

theorem countP_eq_one_of_nodup_mem {α : Type} [DecidableEq α] {l : List α} {x : α}
    (hnd : l.Nodup) (hx : x ∈ l) : l.countP (fun y => decide (y = x)) = 1 := by
  induction l with
  | nil => cases hx
  | cons a l ih =>
    rw [List.countP_cons]
    rcases List.mem_cons.mp hx with rfl | hmem
    · have hnotin : x ∉ l := (List.nodup_cons.mp hnd).1
      have hz : l.countP (fun y => decide (y = x)) = 0 := by
        rw [List.countP_eq_zero]
        intro a ha
        rw [decide_eq_true_eq]
        rintro rfl
        exact hnotin ha
      simp [hz]
    · have hne : a ≠ x := by
        rintro rfl
        exact (List.nodup_cons.mp hnd).1 hmem
      rw [ih (List.nodup_cons.mp hnd).2 hmem]
      simp [hne]

theorem buildBehaviorGraph_single (uid : String) (e : BEvent) (wh : ℚ) (nid : String)
    (nd : NodeData) (hni : nodeInfoOf e = some (nid, nd)) (hne : nid ≠ "START") :
    buildBehaviorGraph uid [e] wh =
      { nodes := [("START", startNodeData uid), (nid, nd)],
        edges := [("START", nid, { weight := e.weight, time_diff := none })] } := by
  show processEvent wh [e] { nodes := [("START", startNodeData uid)], edges := [] } (0, e) = _
  unfold processEvent
  dsimp only
  rw [hni]
  dsimp only
  have hany : ([("START", startNodeData uid)].any (fun nd2 => nd2.1 = nid)) = false := by
    simp only [List.any_cons, List.any_nil, Bool.or_false, decide_eq_false_iff_not]
    exact Ne.symm hne
  unfold BGraph.addNode
  rw [hany, if_neg Bool.false_ne_true]
  simp only [predsWindow, List.take_zero, List.drop_nil, List.foldl_nil]
  unfold BGraph.hasEdge BGraph.addEdge
  simp only [List.any_nil]
  rw [if_neg Bool.false_ne_true]
  rfl

theorem clamp1_nonneg {v : ℚ} (h : 0 ≤ v) : 0 ≤ clamp1 v := by
  unfold clamp1
  split
  · norm_num
  · exact h

theorem clamp1_le_one (v : ℚ) : clamp1 v ≤ 1 := by
  unfold clamp1
  split
  · exact le_refl 1
  · rename_i hv
    exact le_of_not_lt hv

theorem adaptiveWeights_nonneg (b1 b2 : Bool) :
    0 ≤ (adaptiveWeights b1 b2).1 ∧ 0 ≤ (adaptiveWeights b1 b2).2.1 ∧
      0 ≤ (adaptiveWeights b1 b2).2.2 := by
  cases b1 <;> cases b2 <;> refine ⟨?_, ?_, ?_⟩ <;> norm_num [adaptiveWeights]

/-- The fallback output is the top-`k` of a stable descending sort of the
fixed catalog scored by a per-product function whose values lie in [0, 1]. -/
theorem fallback_shape (profile : UserProfile) (top_k : ℕ) (graph : Option BGraph)
    (nxs : NxSignals) (patterns : List PatternIn) :
    ∃ g : String → ℚ, (∀ p, 0 ≤ g p ∧ g p ≤ 1) ∧
      fallbackRecommendations profile top_k graph nxs patterns =
        (sortDescBy Prod.snd (products.map (fun p => (p, g p)))).take top_k := by
  refine ⟨fun p =>
    clamp1 (baseScores profile p *
        (adaptiveWeights (match graph with
          | none => false
          | some g0 => decide (0 < g0.nodes.length)) (!patterns.isEmpty)).1 +
      graphScores graph nxs p *
        (adaptiveWeights (match graph with
          | none => false
          | some g0 => decide (0 < g0.nodes.length)) (!patterns.isEmpty)).2.1 +
      patternScores patterns p *
        (adaptiveWeights (match graph with
          | none => false
          | some g0 => decide (0 < g0.nodes.length)) (!patterns.isEmpty)).2.2), ?_, rfl⟩
  intro p
  constructor
  · refine clamp1_nonneg ?_
    have hw := adaptiveWeights_nonneg (match graph with
      | none => false
      | some g0 => decide (0 < g0.nodes.length)) (!patterns.isEmpty)
    refine add_nonneg (add_nonneg ?_ ?_) ?_
    · exact mul_nonneg (baseScores_nonneg profile p) hw.1
    · exact mul_nonneg (graphScores_nonneg graph nxs p) hw.2.1
    · exact mul_nonneg (patternScores_nonneg patterns p) hw.2.2
  · exact clamp1_le_one _

/-- Concrete evaluation of the fallback recommender on an all-zero profile
with no graph and no patterns: base-signal floors only, catalog-stable
ordering of the tied trailing scores. -/
theorem fallback_concrete_eval : fallbackRecommendations {} 5 none zeroNxSignals [] =
    [("Дебетовая карта", 0.3), ("Кредитная карта", 0.2), ("Вклад", 0.15),
     ("Ипотека", 0.1), ("Кредит", 0.1)] := by
  simp [fallbackRecommendations, baseScores, graphScores, patternScores,
    adaptiveWeights, clamp1, setScore, zeroScores, sortDescBy,
    topCategoryRealEstate, products, List.insertionSort, List.orderedInsert]
  norm_num

/-! ## Claim theorems -/

/-- C1: in the fallback scorer, the adaptive fusion weight triple
`(base_weight, graph_weight, pattern_weight)` is chosen by signal
availability exactly as specified — graph and patterns present gives
`(0.4, 0.35, 0.25)`, only graph `(0.5, 0.5, 0)`, only patterns
`(0.6, 0, 0.4)`, neither `(1, 0, 0)` — and in each of the four cases the
three weights sum exactly to 1. -/
theorem C1_adaptive_fusion_weights :
    adaptiveWeights true true = (0.4, 0.35, 0.25) ∧
    adaptiveWeights true false = (0.5, 0.5, 0) ∧
    adaptiveWeights false true = (0.6, 0, 0.4) ∧
    adaptiveWeights false false = (1, 0, 0) ∧
    ∀ hasGraph hasPatterns : Bool,
      (adaptiveWeights hasGraph hasPatterns).1 +
        (adaptiveWeights hasGraph hasPatterns).2.1 +
        (adaptiveWeights hasGraph hasPatterns).2.2 = 1 := by
  refine ⟨by norm_num [adaptiveWeights], by norm_num [adaptiveWeights],
    by norm_num [adaptiveWeights], by norm_num [adaptiveWeights], ?_⟩
  intro hg hp
  cases hg <;> cases hp <;> norm_num [adaptiveWeights]

/-- C5 counterexample: on the graph holding only the `START` node (built
from no events), `graph_stats` reports `is_connected = True` (a one-node
graph is weakly connected in networkx), not `False` as the claim states. -/
theorem C5_counterexample_start_only_connected :
    (getGraphStatistics (buildBehaviorGraph "u" [] 24)).is_connected = some true := rfl

/-- C5 (amended): for the graph containing only the `START` node (no
events), `graph_stats` returns exactly
`{nodes: 1, edges: 0, density: 0, avg_degree: 0, is_connected: True}`
without raising. -/
theorem C5_amended_start_only_stats :
    getGraphStatistics (buildBehaviorGraph "u" [] 24) =
      { nodes := 1, edges := 0, density := 0, avg_degree := 0, is_connected := some true } := by
  have hg : buildBehaviorGraph "u" [] 24 =
      { nodes := [("START", startNodeData "u")], edges := [] } := rfl
  rw [hg]
  unfold getGraphStatistics
  norm_num [BGraph.degreeOf, BGraph.isWeaklyConnected, BGraph.weakReach,
    BGraph.expandOnce, BGraph.undirectedAdj]

/-- C10: on the empty directed graph `get_graph_statistics` returns
`{nodes: 0, edges: 0, density: 0, avg_degree: 0}` with no `is_connected`
entry and does not raise, and the `is_connected` field is absent exactly in
the empty-graph case — any graph with at least one node gets one. -/
theorem C10_empty_graph_stats :
    getGraphStatistics { nodes := [], edges := [] } =
      { nodes := 0, edges := 0, density := 0, avg_degree := 0, is_connected := none } ∧
    ∀ g : BGraph, g.nodes ≠ [] → ∃ b, (getGraphStatistics g).is_connected = some b := by
  constructor
  · rfl
  · intro g hg
    unfold getGraphStatistics
    rw [if_neg (by simpa using hg)]
    exact ⟨g.isWeaklyConnected, rfl⟩

/-- Witness for C10 at a concrete non-empty graph. -/
theorem C10_witness :
    ∃ b, (getGraphStatistics (buildBehaviorGraph "u" [] 24)).is_connected = some b :=
  C10_empty_graph_stats.2 (buildBehaviorGraph "u" [] 24) (by decide)

/-- C4: for a pattern missing the rule cache and matching no heuristic, a
failing oracle call still yields a deterministic low-confidence rule with a
(non-empty) product from `match_pattern`, not an error and not `None`. -/
theorem C4_oracle_failure_fallback (cache : List (String × CacheEntry)) (err : String)
    (parse : String → Except String (Option GptJson)) (pattern : String)
    (ctx : Option UserContext) (hcache : cache.lookup pattern = none)
    (hheur : ruleHeuristic pattern ctx = none) :
    matchPattern cache (.error err) parse pattern ctx =
      some { pattern := pattern, product := patternFallbackProduct pattern,
             reason := "Ошибка при генерации", confidence := "низкая" } ∧
    patternFallbackProduct pattern ≠ "" := by
  constructor
  · unfold matchPattern generateRuleFromPattern
    rw [hcache, hheur]
  · unfold patternFallbackProduct
    split
    · decide
    · split
      · decide
      · decide

/-- Witness for C4 at a concrete cache, pattern and context. -/
theorem C4_witness :
    matchPattern [] (.error "err") (fun _ => .ok none) "X→X→X" none =
      some { pattern := "X→X→X", product := patternFallbackProduct "X→X→X",
             reason := "Ошибка при генерации", confidence := "низкая" } ∧
    patternFallbackProduct "X→X→X" ≠ "" :=
  C4_oracle_failure_fallback [] "err" (fun _ => .ok none) "X→X→X" none rfl rfl

/-- C3: `predict` returns exactly the fallback recommender's result for the
same inputs whenever the wrapped regressor is absent, untrained, or raises
during prediction; no regressor exception reaches the caller (the model
error is consumed in the second and third cases). -/
theorem C3_predict_routes_to_fallback (profile : UserProfile) (top_k : ℕ)
    (graph : Option BGraph) (nxs : NxSignals) (patterns : List PatternIn) :
    (nboPredict none profile top_k graph nxs patterns =
      fallbackRecommendations profile top_k graph nxs patterns) ∧
    (∀ m : MLModel, m.fitted = false →
      nboPredict (some m) profile top_k graph nxs patterns =
        fallbackRecommendations profile top_k graph nxs patterns) ∧
    (∀ (m : MLModel) (e : String), m.fitted = true →
      m.predictScore profile = .error e →
      nboPredict (some m) profile top_k graph nxs patterns =
        fallbackRecommendations profile top_k graph nxs patterns) := by
  refine ⟨rfl, ?_, ?_⟩
  · intro m hm
    show (if (!m.fitted) = true then _ else _) = _
    rw [hm]
    rfl
  · intro m e hm he
    show (if (!m.fitted) = true then _ else _) = _
    rw [hm, he]
    rfl

/-- Witness for C3 at a concrete raising regressor. -/
theorem C3_witness :
    nboPredict (some { fitted := true, predictScore := fun _ => .error "boom" })
      {} 3 none zeroNxSignals [] =
      fallbackRecommendations {} 3 none zeroNxSignals [] :=
  (C3_predict_routes_to_fallback {} 3 none zeroNxSignals []).2.2
    { fitted := true, predictScore := fun _ => .error "boom" } "boom" rfl rfl

/-- C6: for every event list (hence for every combination of input event
tables, whose aggregation produces such a list), the built graph contains
exactly one `START` node and every other node has a direct incoming edge
from `START`, present exactly once — so every node is reachable from
`START`. -/
theorem C6_start_node_invariant (userId : String) (events0 : List BEvent)
    (windowHours : ℚ) :
    ((buildBehaviorGraph userId events0 windowHours).keys.count "START" = 1) ∧
    ∀ n ∈ (buildBehaviorGraph userId events0 windowHours).keys, n ≠ "START" →
      (buildBehaviorGraph userId events0 windowHours).epairs.countP
        (fun pr => decide (pr = ("START", n))) = 1 := by
  obtain ⟨hcnt, hnd, hmem⟩ := buildBehaviorGraph_good userId events0 windowHours
  exact ⟨hcnt, fun n hn hne => countP_eq_one_of_nodup_mem hnd (hmem n hn hne)⟩

/-- Witness for C6 at a single payment event producing a brand node. -/
theorem C6_witness :
    (buildBehaviorGraph "u" [payEventB] 24).epairs.countP
      (fun pr => decide (pr = ("START", "brand_B"))) = 1 :=
  (C6_start_node_invariant "u" [payEventB] 24).2 "brand_B" (by decide) (by decide)

/-- C8: for every sequence and thresholds `min_len ≥ 1`, `min_support ≥ 1`,
mining returns no pattern shorter than `min_len` or longer than 5, none
whose count of contiguous occurrences falls below `min_support` (the
reported count is the true occurrence count), and a sequence shorter than
`min_len` yields the empty list rather than an error. -/
theorem C8_mine_patterns_bounds (seq : List String) (minLen minSupport : ℕ)
    (hL : 1 ≤ minLen) (hS : 1 ≤ minSupport) :
    (∀ p c, (p, c) ∈ findFrequentPatterns [seq] minLen minSupport →
      minLen ≤ p.length ∧ p.length ≤ 5 ∧ minSupport ≤ c ∧ c = occCount seq p) ∧
    (seq.length < minLen → minePatterns seq minLen minSupport = []) := by
  refine ⟨fun p c h => mem_findFrequentPatterns_single h, ?_⟩
  intro hlen
  unfold minePatterns
  rw [if_pos hlen]

/-- Witness for C8 at concrete sequences. -/
theorem C8_witness :
    (3 ≤ (["V", "P", "V"] : List String).length ∧
      (["V", "P", "V"] : List String).length ≤ 5 ∧ 1 ≤ 1 ∧
      1 = occCount ["V", "P", "V", "P"] ["V", "P", "V"]) ∧
    minePatterns ["V"] 3 1 = [] :=
  ⟨(C8_mine_patterns_bounds ["V", "P", "V", "P"] 3 1 (by decide) (by decide)).1
      ["V", "P", "V"] 1 (by decide),
    (C8_mine_patterns_bounds ["V"] 3 1 (by decide) (by decide)).2 (by decide)⟩

/-- C9: raising `min_support` can only remove mined patterns, never add
any — the result for `s2` is contained in the result for `s1 ≤ s2`, both
for the counted form and for the final pattern list. -/
theorem C9_min_support_monotone (seq : List String) (minLen s1 s2 : ℕ) (hs : s1 ≤ s2) :
    (∀ e ∈ findFrequentPatterns [seq] minLen s2, e ∈ findFrequentPatterns [seq] minLen s1) ∧
    ∀ p ∈ minePatterns seq minLen s2, p ∈ minePatterns seq minLen s1 := by
  refine ⟨fun e he => mem_findFrequentPatterns_mono hs he, ?_⟩
  intro p hp
  unfold minePatterns at hp ⊢
  split at hp
  · exact absurd hp (List.not_mem_nil p)
  · rename_i h
    rw [if_neg h]
    obtain ⟨e, he, rfl⟩ := List.mem_map.mp hp
    exact List.mem_map.mpr ⟨e, mem_findFrequentPatterns_mono hs he, rfl⟩

/-- Witness for C9 at a concrete sequence and thresholds 1 ≤ 2. -/
theorem C9_witness :
    ["V", "P", "V"] ∈ minePatterns ["V", "P", "V", "P", "V"] 3 1 :=
  (C9_min_support_monotone ["V", "P", "V", "P", "V"] 3 1 2 (by decide)).2
    ["V", "P", "V"] (by decide)

/-- C7 counterexample: a receipts aggregation group with 2 transactions
yields an event of weight 2 — the bare transaction count — not
`2 × action_weight(purchase) = 10` as the claim's "every aggregated event
group" universal demands. -/
theorem C7_counterexample_receipts_weight :
    (rcGroupEvent ⟨some "еда", some "B1", 5, 100, 2, 0, some "i1"⟩).weight = 2 ∧
    ¬ (rcGroupEvent ⟨some "еда", some "B1", 5, 100, 2, 0, some "i1"⟩).weight =
        (2 : ℚ) * actionWeight "purchase" := by
  constructor
  · norm_num [rcGroupEvent]
  · rw [show actionWeight "purchase" = 5 from rfl]
    norm_num [rcGroupEvent]

/-- C7 (amended): the action-weight table is view=1, click=2,
add_to_cart=3, transaction=4, order=purchase=5; marketplace/retail groups
get weight `count × action_weight`; payment groups get weight
`count × 4 × log1p(total_amount)` when the total is positive; receipt
groups get weight `transaction_count` (no action multiplier); and a user
with 3 payment events to the same brand inside the window and no other
events yields a graph with exactly the `START` and one brand node, joined
by one edge of weight `3 × 4 × log(1 + amount)` where `amount` is the
summed total. -/
theorem C7_amended_aggregation_weights :
    (actionWeight "view" = 1 ∧ actionWeight "click" = 2 ∧ actionWeight "add_to_cart" = 3 ∧
      actionWeight "transaction" = 4 ∧ actionWeight "order" = 5 ∧ actionWeight "purchase" = 5) ∧
    (∀ (domain : String) (r : MpAggRow),
      (mpGroupEvent domain r).weight = (r.count : ℚ) * actionWeight (r.action_type.getD "view")) ∧
    (∀ (log1p : ℚ → ℚ) (r : PayAggRow), 0 < r.total_amount →
      (payGroupEvent log1p r).weight = (r.count : ℚ) * 4 * log1p r.total_amount) ∧
    (∀ r : RcAggRow, (rcGroupEvent r).weight = (r.transaction_count : ℚ)) ∧
    (∀ (log1p : ℚ → ℚ) (a b c t : ℚ), 0 < a + b + c →
      (buildGraphFromPayments log1p "u"
          [⟨some "B", a, t⟩, ⟨some "B", b, t + 60⟩, ⟨some "B", c, t + 120⟩] 24).keys =
        ["START", "brand_B"] ∧
      (buildGraphFromPayments log1p "u"
          [⟨some "B", a, t⟩, ⟨some "B", b, t + 60⟩, ⟨some "B", c, t + 120⟩] 24).epairs =
        [("START", "brand_B")] ∧
      ((buildGraphFromPayments log1p "u"
          [⟨some "B", a, t⟩, ⟨some "B", b, t + 60⟩, ⟨some "B", c, t + 120⟩] 24).edges.map
        (fun ed => ed.2.2.weight)) = [3 * 4 * log1p (a + b + c)]) := by
  refine ⟨⟨rfl, rfl, rfl, rfl, rfl, rfl⟩, ?_, ?_, ?_, ?_⟩
  · intro domain r
    rfl
  · intro log1p r h
    show (r.count : ℚ) * actionWeight "transaction" *
        (if 0 < r.total_amount then log1p (max 0 r.total_amount) else 1) =
      (r.count : ℚ) * 4 * log1p r.total_amount
    rw [if_pos h, max_eq_right (le_of_lt h), show actionWeight "transaction" = 4 from rfl]
  · intro r
    rfl
  · intro log1p a b c t h
    refine ⟨rfl, rfl, ?_⟩
    show [((3 : ℕ) : ℚ) * actionWeight "transaction" *
        (if 0 < a + (b + (c + 0)) then log1p (max 0 (a + (b + (c + 0)))) else 1)] =
      [3 * 4 * log1p (a + b + c)]
    have hS : a + (b + (c + 0)) = a + b + c := by ring
    rw [hS, if_pos h, max_eq_right (le_of_lt h),
      show actionWeight "transaction" = 4 from rfl]
    norm_num

/-- Witness for C7 at three unit payments and the identity in place of
`log1p`. -/
theorem C7_witness :
    ((buildGraphFromPayments (fun q => q) "u"
        [⟨some "B", 1, 0⟩, ⟨some "B", 1, 0 + 60⟩, ⟨some "B", 1, 0 + 120⟩] 24).edges.map
      (fun ed => ed.2.2.weight)) = [3 * 4 * (fun q : ℚ => q) ((1 : ℚ) + 1 + 1)] :=
  (C7_amended_aggregation_weights.2.2.2.2 (fun q => q) 1 1 1 0 (by norm_num)).2.2

/-- C2: for every profile, graph, pattern list and `top_k`, the fallback
recommender's output is sorted non-increasing by score, has length at most
`top_k`, every score lies in [0, 1], and equal scores are ordered by the
fixed catalog position of the product (stable sort over the catalog). -/
theorem C2_fallback_output_contract (profile : UserProfile) (top_k : ℕ)
    (graph : Option BGraph) (nxs : NxSignals) (patterns : List PatternIn) :
    List.Sorted (fun x y : String × ℚ => y.2 ≤ x.2)
      (fallbackRecommendations profile top_k graph nxs patterns) ∧
    (fallbackRecommendations profile top_k graph nxs patterns).length ≤ top_k ∧
    (∀ r ∈ fallbackRecommendations profile top_k graph nxs patterns,
      0 ≤ r.2 ∧ r.2 ≤ 1) ∧
    ∀ (i j : Fin (fallbackRecommendations profile top_k graph nxs patterns).length),
      (i : ℕ) < (j : ℕ) →
      ((fallbackRecommendations profile top_k graph nxs patterns).get i).2 =
        ((fallbackRecommendations profile top_k graph nxs patterns).get j).2 →
      products.indexOf ((fallbackRecommendations profile top_k graph nxs patterns).get i).1 <
        products.indexOf ((fallbackRecommendations profile top_k graph nxs patterns).get j).1 := by
  obtain ⟨g, hg, hshape⟩ := fallback_shape profile top_k graph nxs patterns
  rw [hshape]
  refine ⟨?_, ?_, ?_, ?_⟩
  · exact List.Pairwise.sublist (List.take_sublist _ _) (sortDescBy_sorted Prod.snd _)
  · rw [List.length_take]
    exact min_le_left _ _
  · intro r hr
    have hr2 : r ∈ sortDescBy Prod.snd (products.map (fun p => (p, g p))) :=
      List.take_subset _ _ hr
    rw [mem_sortDescBy] at hr2
    obtain ⟨p, hp, rfl⟩ := List.mem_map.mp hr2
    exact hg p
  · have hcat : products.Pairwise (fun a b => products.indexOf a < products.indexOf b) := by
      decide
    have hpw : (products.map (fun p => (p, g p))).Pairwise
        (fun x y : String × ℚ => products.indexOf x.1 < products.indexOf y.1) := by
      rw [List.pairwise_map]
      exact hcat
    have hR := pairwise_sortDescBy Prod.snd
      (fun x y : String × ℚ => products.indexOf x.1 < products.indexOf y.1) _ hpw
    have hRtake := List.Pairwise.sublist (List.take_sublist top_k _) hR
    rw [List.pairwise_iff_get] at hRtake
    intro i j hij heq
    rcases hRtake i j hij with hlt | ⟨_, hq⟩
    · rw [heq] at hlt
      exact absurd hlt (lt_irrefl _)
    · exact hq

/-- Witness for C2 at an all-zero profile: the tied pair at positions 3 and
4 keeps catalog order, and the top score lies in [0, 1]. -/
theorem C2_witness :
    products.indexOf ((fallbackRecommendations {} 5 none zeroNxSignals []).get
      ⟨3, by rw [fallback_concrete_eval]; decide⟩).1 <
      products.indexOf ((fallbackRecommendations {} 5 none zeroNxSignals []).get
        ⟨4, by rw [fallback_concrete_eval]; decide⟩).1 ∧
    (0 ≤ ((fallbackRecommendations {} 5 none zeroNxSignals []).get
      ⟨0, by rw [fallback_concrete_eval]; decide⟩).2 ∧
      ((fallbackRecommendations {} 5 none zeroNxSignals []).get
        ⟨0, by rw [fallback_concrete_eval]; decide⟩).2 ≤ 1) := by
  constructor
  · refine (C2_fallback_output_contract {} 5 none zeroNxSignals []).2.2.2 _ _ (by decide) ?_
    rw [List.get_of_eq fallback_concrete_eval, List.get_of_eq fallback_concrete_eval]
    rfl
  · exact (C2_fallback_output_contract {} 5 none zeroNxSignals []).2.2.1 _
      (List.get_mem _ _ _)
